import Mathlib

/-!
Verification development for the `GenomicData` conversion engine
(`ROCrateCreation/GenomicDataModel/GenomicData.py` and the entity model in
`project.py` / `experiment.py`).

The Python code is shallowly embedded:
* Python `dict`s (insertion ordered, unique keys, first-match lookup,
  in-place overwrite) are modelled as association lists `List (String × α)`
  with the operations in the `Amap` namespace.
* Python strings are Lean `String`s; the handful of string operations the
  code uses (`lower`, `replace`, `split`, `in`, f-string decimal rendering)
  are defined below on the character lists.
* CSV serialization through `csv.DictWriter`/`csv.DictReader` is modelled as
  the faithful round-trip it performs: a written row is read back as one
  value per fieldname, missing cells becoming `""` (`csvRound`).
-/

/-! ## Python dict model -/

namespace Amap

/-- First-match lookup, the semantics of `d[k]` / `d.get(k)` on a dict
(whose keys are unique, making first-match exact). -/
def get? {α : Type} : List (String × α) → String → Option α
  | [], _ => none
  | (k', v) :: rest, k => if k' = k then some v else get? rest k

/-- Python `d.get(k, default)`. -/
def getD {α : Type} (m : List (String × α)) (k : String) (d : α) : α :=
  (get? m k).getD d

/-- Python `k in d`. -/
def contains {α : Type} (m : List (String × α)) (k : String) : Bool :=
  (get? m k).isSome

/-- Python `d[k] = v`: overwrite in place if the key is present, else append. -/
def set {α : Type} : List (String × α) → String → α → List (String × α)
  | [], k, v => [(k, v)]
  | (k', v') :: rest, k, v =>
    if k' = k then (k', v) :: rest else (k', v') :: set rest k v

def keys {α : Type} (m : List (String × α)) : List String := m.map (·.1)

@[simp] theorem get?_nil {α : Type} (k : String) : get? ([] : List (String × α)) k = none := rfl

theorem get?_cons {α : Type} (k' k : String) (v : α) (rest : List (String × α)) :
    get? ((k', v) :: rest) k = if k' = k then some v else get? rest k := rfl

@[simp] theorem get?_set_self {α : Type} (m : List (String × α)) (k : String) (v : α) :
    get? (set m k v) k = some v := by
  induction m with
  | nil => simp [set, get?]
  | cons p rest ih =>
    by_cases h : p.1 = k
    · simp [set, h, get?]
    · simp [set, h, get?, ih]

theorem get?_set_ne {α : Type} (m : List (String × α)) (k k' : String) (v : α)
    (h : k ≠ k') : get? (set m k v) k' = get? m k' := by
  induction m with
  | nil => simp [set, get?, h]
  | cons p rest ih =>
    by_cases hp : p.1 = k
    · simp [set, hp, get?, h]
    · simp only [set, hp, if_false, get?]
      by_cases hp' : p.1 = k'
      · simp [hp']
      · simp [hp', ih]

theorem get?_set {α : Type} (m : List (String × α)) (k k' : String) (v : α) :
    get? (set m k v) k' = if k = k' then some v else get? m k' := by
  by_cases h : k = k'
  · subst h; simp
  · simp [h, get?_set_ne m k k' v h]

theorem get?_append {α : Type} (m m' : List (String × α)) (k : String) :
    get? (m ++ m') k = match get? m k with
      | some v => some v
      | none => get? m' k := by
  induction m with
  | nil => simp [get?]
  | cons p rest ih =>
    by_cases h : p.1 = k
    · simp [get?, h]
    · simp [get?, h, ih]

theorem get?_append_left {α : Type} {m : List (String × α)} {k : String} {v : α}
    (m' : List (String × α)) (h : get? m k = some v) : get? (m ++ m') k = some v := by
  rw [get?_append, h]

theorem get?_append_right {α : Type} {m : List (String × α)} {k : String}
    (m' : List (String × α)) (h : get? m k = none) : get? (m ++ m') k = get? m' k := by
  rw [get?_append, h]

theorem set_eq_append {α : Type} (m : List (String × α)) (k : String) (v : α)
    (h : get? m k = none) : set m k v = m ++ [(k, v)] := by
  induction m with
  | nil => simp [set]
  | cons p rest ih =>
    by_cases hp : p.1 = k
    · simp [get?, hp] at h
    · simp only [get?, hp, if_false] at h
      simp [set, hp, ih h]

theorem mem_of_get?_eq_some {α : Type} {m : List (String × α)} {k : String} {v : α}
    (h : get? m k = some v) : (k, v) ∈ m := by
  induction m with
  | nil => simp [get?] at h
  | cons p rest ih =>
    obtain ⟨k1, v1⟩ := p
    by_cases hp : k1 = k
    · subst hp
      simp only [get?, if_true] at h
      cases h
      exact List.mem_cons_self _ _
    · simp only [get?, hp, if_false] at h
      exact List.mem_cons_of_mem _ (ih h)

theorem get?_eq_none_iff {α : Type} (m : List (String × α)) (k : String) :
    get? m k = none ↔ k ∉ keys m := by
  induction m with
  | nil => simp [get?, keys]
  | cons p rest ih =>
    obtain ⟨k1, v1⟩ := p
    by_cases hp : k1 = k
    · subst hp
      simp [get?, keys]
    · simp only [get?, hp, if_false]
      rw [ih]
      simp only [keys, List.map_cons, List.mem_cons]
      constructor
      · intro h hmem
        rcases hmem with h1 | h1
        · exact hp h1.symm
        · exact h h1
      · intro h hmem
        exact h (Or.inr hmem)

theorem get?_isSome_of_mem_keys {α : Type} {m : List (String × α)} {k : String}
    (h : k ∈ keys m) : (get? m k).isSome := by
  cases hg : get? m k with
  | none => exact absurd h ((get?_eq_none_iff m k).1 hg)
  | some v => rfl

end Amap

/-- Row of CSV data / generic string-valued dict. -/
abbrev RowMap := List (String × String)

/-! ## Python string primitives on character lists -/

/-- Python `str.lower()` (ASCII, which is all that accessions use). -/
def pyLower (s : String) : String := String.mk (s.data.map Char.toLower)

/-- Python `str.upper()`. -/
def pyUpper (s : String) : String := String.mk (s.data.map Char.toUpper)

/-- Python `s.replace(c, c')` for one-character patterns. -/
def pyReplaceChar (s : String) (c c' : Char) : String :=
  String.mk (s.data.map (fun a => if a = c then c' else a))

/-- Python `s.replace(c, "")` for a one-character pattern: drop every
occurrence of the character. -/
def pyDropChar (s : String) (c : Char) : String :=
  String.mk (s.data.filter (fun a => !(a = c)))

/-- `accession.lower().replace("-", "_")`, the sample-name normalization. -/
def lowerDash (s : String) : String :=
  pyReplaceChar (pyLower s) '-' '_'

/-- Python `c in s` for a single-character needle. -/
def pyHasChar (s : String) (c : Char) : Bool := s.data.any (fun a => a = c)

/-- Python `s.split(c)[0]`: everything before the first occurrence of `c`
(the whole string when `c` does not occur). -/
def takeBefore (s : String) (c : Char) : String :=
  String.mk (s.data.takeWhile (fun a => !(a = c)))

/-- Python `s.split(c)[-1]`: everything after the last occurrence of `c`. -/
def lastSegAfter (s : String) (c : Char) : String :=
  String.mk (s.data.foldl (fun acc a => if a = c then [] else acc ++ [a]) [])

/-- Python `sep.join(l)`. -/
def pyJoin (sep : String) : List String → String
  | [] => ""
  | [x] => x
  | x :: y :: rest => x ++ sep ++ pyJoin sep (y :: rest)

/-- Truthiness of a Python string. -/
def pyTruthy (s : String) : Bool := !(s = "")

/-- Python `a or b` where `a` is a string. -/
def pyOrS (a b : String) : String := if a = "" then b else a

/-- Python `a or b` where `a` is an optional string (`None` and `""` falsy). -/
def pyOr (a : Option String) (b : String) : String :=
  match a with
  | some s => pyOrS s b
  | none => b

/-- Truthiness of `Optional[str]`. -/
def pyTruthyOpt (a : Option String) : Bool :=
  match a with
  | some s => pyTruthy s
  | none => false

/-! ## Decimal rendering of naturals (Python f-string `{i}`) -/

/-- The decimal digit characters. -/
def decDigits : List Char := ['0', '1', '2', '3', '4', '5', '6', '7', '8', '9']

/-- Character of a decimal digit. -/
def digChar : Nat → Char
  | 0 => '0' | 1 => '1' | 2 => '2' | 3 => '3' | 4 => '4'
  | 5 => '5' | 6 => '6' | 7 => '7' | 8 => '8' | _ => '9'

/-- Numeric value of a digit character. -/
def chVal (c : Char) : Nat :=
  if c = '0' then 0 else if c = '1' then 1 else if c = '2' then 2
  else if c = '3' then 3 else if c = '4' then 4 else if c = '5' then 5
  else if c = '6' then 6 else if c = '7' then 7 else if c = '8' then 8 else 9

/-- Fuel-driven decimal rendering; `fuel > n` renders `n` exactly. -/
def natCharsF : Nat → Nat → List Char
  | 0, _ => []
  | fuel + 1, n =>
    if n < 10 then [digChar n] else natCharsF fuel (n / 10) ++ [digChar (n % 10)]

/-- Decimal rendering of a natural number, as Python's f-string produces it. -/
def natStr (n : Nat) : String := String.mk (natCharsF (n + 1) n)

/-- Value of a digit string (left fold, most significant first). -/
def charsVal (l : List Char) : Nat := l.foldl (fun a c => a * 10 + chVal c) 0

theorem chVal_digChar {d : Nat} (h : d < 10) : chVal (digChar d) = d := by
  interval_cases d <;> rfl

theorem digChar_mem_decDigits {d : Nat} (h : d < 10) : digChar d ∈ decDigits := by
  interval_cases d <;> simp [digChar, decDigits]

theorem charsVal_append_digit (l : List Char) (c : Char) :
    charsVal (l ++ [c]) = charsVal l * 10 + chVal c := by
  simp [charsVal, List.foldl_append]

theorem foldl_val_acc (l : List Char) (a : Nat) :
    l.foldl (fun a c => a * 10 + chVal c) a = a * 10 ^ l.length + charsVal l := by
  induction l generalizing a with
  | nil => simp [charsVal]
  | cons c rest ih =>
    simp only [List.foldl_cons, charsVal, List.length_cons]
    rw [ih, ih (0 * 10 + chVal c)]
    ring

theorem charsVal_natCharsF : ∀ (fuel n : Nat), n < fuel →
    charsVal (natCharsF fuel n) = n := by
  intro fuel
  induction fuel with
  | zero => intro n h; omega
  | succ f ih =>
    intro n h
    by_cases h10 : n < 10
    · simp [natCharsF, h10, charsVal, chVal_digChar h10]
    · have hpos : 0 < n := by omega
      have hdiv : n / 10 < n := Nat.div_lt_self hpos (by norm_num)
      have hdivf : n / 10 < f := by omega
      simp only [natCharsF, h10, if_false]
      rw [charsVal_append_digit, ih _ hdivf, chVal_digChar (Nat.mod_lt n (by norm_num))]
      omega

theorem natCharsF_all_digits : ∀ (fuel n : Nat), ∀ c ∈ natCharsF fuel n, c ∈ decDigits := by
  intro fuel
  induction fuel with
  | zero => intro n c hc; simp [natCharsF] at hc
  | succ f ih =>
    intro n c hc
    by_cases h10 : n < 10
    · simp only [natCharsF, h10, if_true, List.mem_singleton] at hc
      subst hc
      exact digChar_mem_decDigits h10
    · simp only [natCharsF, h10, if_false, List.mem_append, List.mem_singleton] at hc
      rcases hc with hc | hc
      · exact ih _ c hc
      · subst hc
        exact digChar_mem_decDigits (Nat.mod_lt n (by norm_num))

theorem natStr_inj {m n : Nat} (h : natStr m = natStr n) : m = n := by
  have hd : natCharsF (m + 1) m = natCharsF (n + 1) n := congrArg String.data h
  have hm := charsVal_natCharsF (m + 1) m (by omega)
  have hn := charsVal_natCharsF (n + 1) n (by omega)
  rw [← hm, ← hn, hd]

theorem natStr_all_digits (n : Nat) : ∀ c ∈ (natStr n).data, c ∈ decDigits := by
  intro c hc
  exact natCharsF_all_digits (n + 1) n c hc

theorem underscore_not_digit : '_' ∉ decDigits := by decide

/-! ## String-prefix utilities -/

/-- Boolean test for a string starting with the given pattern. -/
def strStartsWith (p s : String) : Bool := p.data.isPrefixOf s.data

theorem strStartsWith_append (p t : String) : strStartsWith p (p ++ t) = true := by
  simp [strStartsWith, List.isPrefixOf_iff_prefix]

theorem ne_of_startsWith_of_not {p a b : String}
    (ha : strStartsWith p a = true) (hb : strStartsWith p b = false) : a ≠ b := by
  intro h
  subst h
  rw [ha] at hb
  cases hb

theorem string_append_left_cancel {p a b : String} (h : p ++ a = p ++ b) : a = b := by
  have hd : p.data ++ a.data = p.data ++ b.data := by
    have := congrArg String.data h
    simpa using this
  have h2 := List.append_cancel_left hd
  cases a
  cases b
  exact congrArg String.mk h2

/-! ## Entity model

`Project` and `Experiment` follow `project.py` / `experiment.py`.
`Sample`, `Output` and `OutputFile` follow
`DatasetCrates/ROCrateCreation/GenomicDataModel/models/sample.py` and
`.../models/output.py`, the modules defining the classes `GenomicData.py`
imports: `Sample` carries the accession join key, descriptive strings, an
ordered `Dict[str, str]` attribute mapping and the five optional
study-level denormalized fields; `Output` carries the join key, summary
statistics (`Optional[Union[str, int]]`, modelled uniformly as their
string rendering) and an ordered list of `OutputFile`s. -/

structure OutputFile where
  filename : String := ""
  size : String := ""
  date : String := ""
  url : String := ""
  md5 : String := ""
deriving DecidableEq, Repr

structure Output where
  accession : String := ""
  title : String := ""
  experiment_ref : String := ""
  total_spots : String := ""
  total_bases : String := ""
  size : String := ""
  published : String := ""
  files : List OutputFile := []
  nreads : String := ""
  nspots : String := ""
  a_count : String := ""
  c_count : String := ""
  g_count : String := ""
  t_count : String := ""
  n_count : String := ""
deriving DecidableEq, Repr

/-- Per `models/sample.py`: the accession join key, title, scientific
name, taxon id, the open ordered attribute mapping, and the optional
study-level denormalized fields (default `None`). -/
structure Sample where
  accession : String := ""
  title : String := ""
  scientific_name : String := ""
  taxon_id : String := ""
  attributes : RowMap := []
  study_accession : Option String := none
  study_center_name : Option String := none
  study_title : Option String := none
  study_abstract : Option String := none
  study_description : Option String := none
deriving DecidableEq, Repr

/-- Per `experiment.py`: all twelve fields are required (no defaults). -/
structure Experiment where
  accession : String
  title : String
  study_ref : String
  sample_ref : String
  library_name : String
  library_strategy : String
  library_source : String
  library_selection : String
  library_layout : String
  nominal_length : String
  platform_type : String
  instrument_model : String
deriving DecidableEq, Repr

/-- Per `project.py`. -/
structure Project where
  id : String
  accession : String
  archive : String := "Unknown"
  organism_name : String := ""
  title : String := ""
  description : String := ""
  release_date : String := ""
  target_capture : String := ""
  target_material : String := ""
  target_sample_scope : String := ""
  organism_species : String := ""
  organism_taxID : String := ""
  organism_supergroup : String := ""
  method : String := ""
  data_types : List String := []
  project_data_type : String := ""
  submitted_date : String := ""
  organization_role : String := "owner"
  organization_type : String := "center"
  organization_name : String := ""
  access : String := "public"
deriving DecidableEq, Repr

structure Samples where
  items : List Sample
deriving DecidableEq, Repr

structure Experiments where
  items : List Experiment
deriving DecidableEq, Repr

structure Outputs where
  items : List Output
deriving DecidableEq, Repr

structure GenomicData where
  project : Project
  samples : Samples
  experiments : Experiments
  outputs : Outputs
deriving DecidableEq, Repr

/-! ## Input shape of `from_json`

The raw NCBI aggregate JSON is a nested dict; `from_json` reads a fixed
set of keys from it (with `.get` defaults), so the input is modelled as
records of exactly those keys, `Option String` marking possibly-absent
scalar entries (scalars are modelled as their string rendering). -/

structure JOrganism where
  species : Option String := none
  taxID : Option String := none
  supergroup : Option String := none
deriving DecidableEq, Repr

structure JTarget where
  capture : Option String := none
  material : Option String := none
  sample_scope : Option String := none
  organism : JOrganism := {}
deriving DecidableEq, Repr

structure JProjectType where
  target : JTarget := {}
  method : Option String := none
  data_types : List String := []
  project_data_type : Option String := none
deriving DecidableEq, Repr

structure JOrganization where
  role : Option String := none
  type : Option String := none
  name : Option String := none
deriving DecidableEq, Repr

structure JSubmission where
  organization : JOrganization := {}
  submitted : Option String := none
  access : Option String := none
deriving DecidableEq, Repr

structure JProject where
  id : Option String := none
  accession : Option String := none
  archive : Option String := none
  organism_name : Option String := none
  title : Option String := none
  description : Option String := none
  release_date : Option String := none
  project_type : JProjectType := {}
  submission : JSubmission := {}
deriving DecidableEq, Repr

structure JBiosample where
  accession : Option String := none
  title : Option String := none
  scientific_name : Option String := none
  taxon_id : Option String := none
  attributes : RowMap := []
deriving DecidableEq, Repr

structure JStudy where
  accession : Option String := none
  title : Option String := none
  center_name : Option String := none
  abstract : Option String := none
  description : Option String := none
deriving DecidableEq, Repr

structure JDesign where
  library_name : Option String := none
  library_strategy : Option String := none
  library_source : Option String := none
  library_selection : Option String := none
  library_layout : Option String := none
  nominal_length : Option String := none
deriving DecidableEq, Repr

structure JPlatform where
  type : Option String := none
  instrument_model : Option String := none
deriving DecidableEq, Repr

structure JExperiment where
  accession : Option String := none
  title : Option String := none
  study_ref : Option String := none
  sample_ref : Option String := none
  design : JDesign := {}
  platform : JPlatform := {}
deriving DecidableEq, Repr

structure JFile where
  filename : Option String := none
  size : Option String := none
  date : Option String := none
  url : Option String := none
  md5 : Option String := none
deriving DecidableEq, Repr

structure JBaseComposition where
  A : Option String := none
  C : Option String := none
  G : Option String := none
  T : Option String := none
  N : Option String := none
deriving DecidableEq, Repr

structure JRun where
  accession : Option String := none
  title : Option String := none
  experiment_ref : Option String := none
  total_spots : Option String := none
  total_bases : Option String := none
  size : Option String := none
  published : Option String := none
  files : List JFile := []
  nreads : Option String := none
  nspots : Option String := none
  base_composition : JBaseComposition := {}
deriving DecidableEq, Repr

structure JsonData where
  bioproject : JProject := {}
  biosamples : List JBiosample := []
  studies : List JStudy := []
  experiments : List JExperiment := []
  runs : List JRun := []
deriving DecidableEq, Repr

/-! ## `from_json` -/

/-- The `sample_ref → study_ref` lookup built by scanning all experiments
(`experiment.get("sample_ref") or experiment.get("title", "")`, overwritten
per encounter). -/
def sampleToStudyMap (exps : List JExperiment) : RowMap :=
  exps.foldl
    (fun m e =>
      Amap.set m (pyOr e.sample_ref (e.title.getD "")) (pyOr e.study_ref (e.title.getD "")))
    []

/-- Mapping `study accession-or-title → study record`, built only when the
`studies` list is truthy (nonempty). -/
def studiesMap (studies : List JStudy) : List (String × JStudy) :=
  if studies = [] then []
  else studies.foldl (fun m st => Amap.set m (pyOr st.accession (st.title.getD "")) st) []

/-- `from_json`'s construction of the `Project`. -/
def fromJsonProject (pd : JProject) : Project :=
  let target := pd.project_type.target
  let organism := target.organism
  let submission := pd.submission
  let organization := submission.organization
  { id := pd.id.getD ""
    accession := pyOr pd.accession (pd.title.getD "")
    archive := pd.archive.getD ""
    organism_name := pd.organism_name.getD ""
    title := pd.title.getD ""
    description := pd.description.getD ""
    release_date := pd.release_date.getD ""
    target_capture := target.capture.getD ""
    target_material := target.material.getD ""
    target_sample_scope := target.sample_scope.getD ""
    organism_species := organism.species.getD ""
    organism_taxID := organism.taxID.getD ""
    organism_supergroup := organism.supergroup.getD ""
    method := pd.project_type.method.getD ""
    data_types := pd.project_type.data_types
    project_data_type := pd.project_type.project_data_type.getD ""
    submitted_date := submission.submitted.getD ""
    organization_role := organization.role.getD ""
    organization_type := organization.type.getD ""
    organization_name := organization.name.getD ""
    access := submission.access.getD "" }

/-- `from_json`'s construction of one `Sample` from a biosample record. -/
def fromJsonSample (s2s : RowMap) (smap : List (String × JStudy)) (b : JBiosample) : Sample :=
  let sample_ref := pyOr b.accession (pyOr b.title (b.scientific_name.getD ""))
  let study_ref := Amap.get? s2s sample_ref
  let study_data : JStudy :=
    match study_ref with
    | some r => Amap.getD smap r {}
    | none => {}
  { accession := pyOr b.accession (pyOr b.title (b.scientific_name.getD ""))
    title := b.title.getD ""
    scientific_name := b.scientific_name.getD ""
    taxon_id := b.taxon_id.getD ""
    attributes := b.attributes
    study_accession := study_ref
    study_center_name := study_data.center_name
    study_title := study_data.title
    study_abstract := study_data.abstract
    study_description := study_data.description }

/-- `from_json`'s construction of one `Experiment`. -/
def fromJsonExperiment (e : JExperiment) : Experiment :=
  { accession := pyOr e.accession (e.title.getD "")
    title := e.title.getD ""
    study_ref := pyOr e.study_ref (e.title.getD "")
    sample_ref := pyOr e.sample_ref (e.title.getD "")
    library_name := e.design.library_name.getD ""
    library_strategy := e.design.library_strategy.getD ""
    library_source := e.design.library_source.getD ""
    library_selection := e.design.library_selection.getD ""
    library_layout := e.design.library_layout.getD ""
    nominal_length := e.design.nominal_length.getD ""
    platform_type := e.platform.type.getD ""
    instrument_model := e.platform.instrument_model.getD "" }

/-- `from_json`'s construction of one `OutputFile`
(`file.get("filename") or file.get("url", "").split("/")[-1] or ""`). -/
def fromJsonFile (f : JFile) : OutputFile :=
  { filename := pyOr f.filename (pyOrS (lastSegAfter (f.url.getD "") '/') "")
    size := f.size.getD "0"
    date := f.date.getD ""
    url := f.url.getD ""
    md5 := f.md5.getD "" }

/-- `from_json`'s construction of one `Output` from a run record
(numeric defaults `0` are modelled as the string `"0"`). -/
def fromJsonOutput (r : JRun) : Output :=
  { accession := pyOr r.accession (r.title.getD "")
    title := r.title.getD ""
    experiment_ref := pyOr r.experiment_ref (r.title.getD "")
    total_spots := r.total_spots.getD "0"
    total_bases := r.total_bases.getD "0"
    size := r.size.getD "0"
    published := r.published.getD ""
    files := r.files.map fromJsonFile
    nreads := r.nreads.getD "0"
    nspots := r.nspots.getD "0"
    a_count := r.base_composition.A.getD "0"
    c_count := r.base_composition.C.getD "0"
    g_count := r.base_composition.G.getD "0"
    t_count := r.base_composition.T.getD "0"
    n_count := r.base_composition.N.getD "0" }

/-- `GenomicData.from_json`. -/
def fromJson (d : JsonData) : GenomicData :=
  let s2s := sampleToStudyMap d.experiments
  let smap := studiesMap d.studies
  { project := fromJsonProject d.bioproject
    samples := ⟨d.biosamples.map (fromJsonSample s2s smap)⟩
    experiments := ⟨d.experiments.map fromJsonExperiment⟩
    outputs := ⟨d.runs.map fromJsonOutput⟩ }

/-! ## `to_pep` -/

/-- `date.split("T")[0] if "T" in date else date`. -/
def dateOnly (s : String) : String :=
  if pyHasChar s 'T' then takeBefore s 'T' else s

/-- The `experiment_metadata` block of `project_config.yaml`. -/
def pepMetadata (g : GenomicData) : RowMap :=
  let p := g.project
  [ ("series_contact_institute", p.organization_name),
    ("series_bioproject_accession", p.accession),
    ("series_last_update_date", dateOnly p.release_date),
    ("series_overall_design", p.description),
    ("series_platform_organism", p.organism_name),
    ("series_platform_taxid", p.organism_taxID),
    ("series_relation", "BioProject: https://www.ncbi.nlm.nih.gov/bioproject/" ++ p.accession),
    ("series_sample_id", pyJoin " + " (g.samples.items.map (·.accession))),
    ("series_sample_organism", p.organism_name),
    ("series_sample_taxid", p.organism_taxID),
    ("series_submission_date", p.submitted_date),
    ("series_summary", p.description),
    ("series_title", p.title),
    ("series_type", "Expression profiling by " ++ p.method) ]

/-- The scalar entries of `project_config.yaml` (the keys `from_pep` reads
back; values as written by `to_pep`). -/
structure PepConfig where
  name : String
  pep_version : String
  sample_table : String
  subsample_table : String
  experiment_metadata : RowMap
  description : String
deriving DecidableEq, Repr

def toPepConfig (g : GenomicData) : PepConfig :=
  let p := g.project
  { name := pyLower p.accession
    pep_version := "2.1.0"
    sample_table := p.accession ++ "_samples.csv"
    subsample_table := p.accession ++ "_subsamples.csv"
    experiment_metadata := pepMetadata g
    description := "Data from " ++ p.archive ++ " " ++ p.accession ++ " - " ++ p.title }

/-- Experiments mapped to a sample accession: `sample_to_experiment_map`
groups experiments by `sample_ref` in collection order, so the entry for an
accession is exactly the in-order filter. -/
def expsForSample (g : GenomicData) (acc : String) : List Experiment :=
  g.experiments.items.filter (fun e => e.sample_ref = acc)

/-- Outputs mapped to an experiment accession (`experiment_to_output_map`). -/
def outsForExperiment (g : GenomicData) (acc : String) : List Output :=
  g.outputs.items.filter (fun o => o.experiment_ref = acc)

/-- The literal part of a sample row (before the study block, the protocol
fix-up and the attribute merge). -/
def sampleRowLit (p : Project) (s : Sample) : RowMap :=
  let sex := Amap.getD s.attributes "sex" ""
  let cell_type := Amap.getD s.attributes "cell_type" ""
  let tissue_type := Amap.getD s.attributes "tissue_type" ""
  [ ("sample_name", lowerDash s.accession),
    ("protocol", ""),
    ("organism", s.scientific_name),
    ("sample_title", pyOrS s.title (s.scientific_name ++ " " ++ s.accession)),
    ("sample_accession", s.accession),
    ("sample_status", "Public on " ++ dateOnly p.release_date),
    ("sample_submission_date", p.submitted_date),
    ("sample_last_update_date", dateOnly p.release_date),
    ("sample_type", "SRA"),
    ("sample_channel_count", "1"),
    ("sample_source_name_ch1", pyOrS tissue_type (pyOrS cell_type s.scientific_name)),
    ("sample_organism_ch1", s.scientific_name),
    ("sample_taxid_ch1", s.taxon_id),
    ("sample_contact_institute", p.organization_name),
    ("sample_series_id", p.accession),
    ("gsm_id", s.accession),
    ("sex", sex),
    ("tissue", tissue_type),
    ("celltype", cell_type),
    ("treatment", ""),
    ("biosample", "https://www.ncbi.nlm.nih.gov/biosample/" ++ s.accession) ]

/-- The study-column block, added when `sample.study_accession` is truthy. -/
def sampleRowStudy (row : RowMap) (s : Sample) : RowMap :=
  if pyTruthyOpt s.study_accession then
    Amap.set
      (Amap.set
        (Amap.set
          (Amap.set
            (Amap.set row "study_accession" (s.study_accession.getD ""))
            "study_title" (s.study_title.getD ""))
          "study_center_name" (s.study_center_name.getD ""))
        "study_abstract" (s.study_abstract.getD ""))
      "study_description" (s.study_description.getD "")
  else row

/-- `row["protocol"] = experiments[0].library_strategy` when the sample has
matching experiments. -/
def sampleRowProtocol (g : GenomicData) (row : RowMap) (s : Sample) : RowMap :=
  match expsForSample g s.accession with
  | [] => row
  | e :: _ => Amap.set row "protocol" e.library_strategy

/-- Merge of the free-form attributes: each key is added only when not
already a column of the row. -/
def mergeAttrs (row : RowMap) (attrs : RowMap) : RowMap :=
  attrs.foldl (fun r kv => if Amap.contains r kv.1 then r else Amap.set r kv.1 kv.2) row

/-- One samples-CSV row. -/
def mkSampleRow (g : GenomicData) (s : Sample) : RowMap :=
  mergeAttrs (sampleRowProtocol g (sampleRowStudy (sampleRowLit g.project s) s) s) s.attributes

/-- The literal part of one subsamples-CSV row. -/
def subsampleRowLit (s : Sample) (e : Experiment) (o : Output) : RowMap :=
  [ ("sample_name", lowerDash s.accession),
    ("subsample_name", lowerDash o.accession),
    ("srr", o.accession),
    ("srx", e.accession),
    ("total_spots", o.total_spots),
    ("total_bases", o.total_bases),
    ("size", o.size),
    ("published", o.published),
    ("nreads", o.nreads),
    ("nspots", o.nspots),
    ("a_count", o.a_count),
    ("c_count", o.c_count),
    ("g_count", o.g_count),
    ("t_count", o.t_count),
    ("n_count", o.n_count),
    ("read_type", e.library_layout),
    ("data_source", e.platform_type),
    ("library_name", e.library_name),
    ("library_strategy", e.library_strategy),
    ("library_source", e.library_source),
    ("library_selection", e.library_selection),
    ("library_layout", e.library_layout),
    ("nominal_length", e.nominal_length),
    ("instrument_model", e.instrument_model),
    ("platform_type", e.platform_type),
    ("experiment_title", e.title) ]

/-- `for i, file in enumerate(output.files, 1): row[f"file_{i}"] = ...`. -/
def addFileCols (row : RowMap) (i : Nat) : List OutputFile → RowMap
  | [] => row
  | f :: fs =>
    addFileCols
      (Amap.set
        (Amap.set
          (Amap.set
            (Amap.set row ("file_" ++ natStr i) f.url)
            ("file_" ++ natStr i ++ "_md5") f.md5)
          ("file_" ++ natStr i ++ "_size") f.size)
        ("file_" ++ natStr i ++ "_date") f.date)
      (i + 1) fs

/-- One subsamples-CSV row. -/
def mkSubsampleRow (s : Sample) (e : Experiment) (o : Output) : RowMap :=
  addFileCols (subsampleRowLit s e o) 1 o.files

/-- The (sample, experiment, output) triples whose nested iteration produces
the subsample rows: per sample its mapped experiments in order, per
experiment its mapped outputs in order. -/
def subsampleTriples (g : GenomicData) : List (Sample × Experiment × Output) :=
  g.samples.items.flatMap (fun s =>
    (expsForSample g s.accession).flatMap (fun e =>
      (outsForExperiment g e.accession).map (fun o => (s, e, o))))

def subsamplesData (g : GenomicData) : List RowMap :=
  (subsampleTriples g).map (fun t => mkSubsampleRow t.1 t.2.1 t.2.2)

def samplesData (g : GenomicData) : List RowMap :=
  g.samples.items.map (mkSampleRow g)

/-! ### Fieldname computation (`set` union, important columns first,
remainder sorted) -/

/-- First-occurrence deduplication of a key list. -/
def dedupFirstAux : List String → List String → List String
  | [], _ => []
  | x :: xs, seen => if x ∈ seen then dedupFirstAux xs seen else x :: dedupFirstAux xs (x :: seen)

def dedupFirst (l : List String) : List String := dedupFirstAux l []

/-- Code-point comparison of strings (Python string `<`). -/
def charsLe : List Char → List Char → Bool
  | [], _ => true
  | _ :: _, [] => false
  | a :: as, b :: bs => if a < b then true else if b < a then false else charsLe as bs

def strLe (a b : String) : Bool := charsLe a.data b.data

def insertSorted (x : String) : List String → List String
  | [] => [x]
  | y :: ys => if strLe x y then x :: y :: ys else y :: insertSorted x ys

/-- Insertion sort by code points, modelling Python `sorted` on strings. -/
def sortStrings : List String → List String
  | [] => []
  | x :: xs => insertSorted x (sortStrings xs)

/-- All keys appearing in any row. -/
def allRowKeys (rows : List RowMap) : List String :=
  dedupFirst (rows.flatMap Amap.keys)

/-- `ordered_fieldnames`: the important fields that occur, then the
remaining fields sorted. -/
def mkFieldnames (important : List String) (rows : List RowMap) : List String :=
  let fieldnames := allRowKeys rows
  important.filter (fun f => f ∈ fieldnames) ++
    sortStrings (fieldnames.filter (fun f => f ∉ important))

def importantSampleFields : List String :=
  ["sample_name", "protocol", "organism", "sample_title", "sample_accession", "gsm_id"]

def importantSubsampleFields : List String :=
  ["sample_name", "subsample_name", "srr", "srx", "library_strategy",
   "library_source", "library_selection", "instrument_model"]

/-- A CSV file as written by `csv.DictWriter`: the header and the row dicts
(missing cells are materialized as `""` on write). -/
structure Csv where
  fieldnames : List String
  rows : List RowMap
deriving DecidableEq, Repr

/-- The PEP directory produced by `to_pep` / consumed by `from_pep`: the
config and the two CSV files (absent when their row list was empty). -/
structure Pep where
  config : PepConfig
  samples_csv : Option Csv
  subsamples_csv : Option Csv
deriving DecidableEq, Repr

/-- `GenomicData.to_pep`. -/
def toPep (g : GenomicData) : Pep :=
  let sData := samplesData g
  let ssData := subsamplesData g
  { config := toPepConfig g
    samples_csv :=
      if sData = [] then none
      else some ⟨mkFieldnames importantSampleFields sData, sData⟩
    subsamples_csv :=
      if ssData = [] then none
      else some ⟨mkFieldnames importantSubsampleFields ssData, ssData⟩ }

/-! ## `from_pep` -/

/-- Read-back of a written CSV row: `csv.DictReader` yields one value per
header fieldname, with `""` for cells the writer filled in for keys the
row lacked. -/
def csvRound (fieldnames : List String) (r : RowMap) : RowMap :=
  fieldnames.map (fun f => (f, Amap.getD r f ""))

/-- Rows obtained from a CSV file (empty when the file does not exist). -/
def readCsv : Option Csv → List RowMap
  | none => []
  | some c => c.rows.map (csvRound c.fieldnames)

/-- Python `s.replace(pat, "")` for a multi-character pattern (fuel-driven
scan; the fuel bound `|s| + 1` dominates the number of steps). -/
def removeSubAux (pat : List Char) : Nat → List Char → List Char
  | 0, s => s
  | _ + 1, [] => []
  | fuel + 1, c :: cs =>
    if pat.isPrefixOf (c :: cs) then removeSubAux pat fuel ((c :: cs).drop pat.length)
    else c :: removeSubAux pat fuel cs

def pyRemoveSub (s pat : String) : String :=
  if pat.data.isEmpty then s
  else String.mk (removeSubAux pat.data (s.data.length + 1) s.data)

/-- `from_pep`'s construction of the `Project` from the config
(`today` stands for `datetime.now().strftime('%Y-%m-%d')`). -/
def fromPepProject (cfg : PepConfig) (today : String) : Project :=
  let em := cfg.experiment_metadata
  { id := pyUpper cfg.name
    accession := Amap.getD em "series_bioproject_accession" (pyUpper cfg.name)
    archive :=
      if Amap.contains em "series_relation" then
        takeBefore (Amap.getD em "series_relation" "") ':'
      else "Unknown"
    organism_name := Amap.getD em "series_sample_organism" ""
    title := Amap.getD em "series_title" ""
    description := Amap.getD em "series_summary" (Amap.getD em "series_overall_design" "")
    release_date := Amap.getD em "series_last_update_date" today
    organism_species := Amap.getD em "series_platform_taxid" ""
    organism_taxID := Amap.getD em "series_platform_taxid" ""
    method := pyRemoveSub (Amap.getD em "series_type" "") "Expression profiling by "
    submitted_date := Amap.getD em "series_submission_date" ""
    organization_role := "owner"
    organization_type := "center"
    organization_name := Amap.getD em "series_contact_institute" ""
    access := "public" }

/-- The row keys `from_pep` stores outside of `Sample.attributes`. -/
def reservedSampleKeys : List String :=
  ["sample_name", "sample_accession", "scientific_name", "taxon_id",
   "title", "accession", "study_accession", "study_title",
   "study_center_name", "study_abstract", "study_description"]

/-- `from_pep`'s construction of one `Sample` from a samples-CSV row. -/
def sampleFromRow (row : RowMap) : Sample :=
  let sample_name := Amap.getD row "sample_name" ""
  { accession := Amap.getD row "sample_accession" (Amap.getD row "gsm_id" sample_name)
    title := Amap.getD row "title" (Amap.getD row "sample_title" "")
    scientific_name :=
      Amap.getD row "scientific_name"
        (Amap.getD row "organism" (Amap.getD row "sample_organism_ch1" ""))
    taxon_id := Amap.getD row "taxon_id" (Amap.getD row "sample_taxid_ch1" "")
    attributes := row.filter (fun kv => !(reservedSampleKeys.contains kv.1) && pyTruthy kv.2)
    study_accession := some (Amap.getD row "study_accession" "")
    study_center_name := some (Amap.getD row "study_center_name" "")
    study_title := some (Amap.getD row "study_title" "")
    study_abstract := some (Amap.getD row "study_abstract" "")
    study_description := some (Amap.getD row "study_description" "") }

/-- `from_pep`'s construction of one `Experiment` from a subsamples-CSV
row; `sample_ref` is the accession of the first sample whose normalized
accession equals the row's `sample_name`, else `""`. -/
def mkExpFromRow (samples : List Sample) (row : RowMap) : Experiment :=
  let sample_name := Amap.getD row "sample_name" ""
  let sample_accession :=
    match samples.find? (fun s => lowerDash s.accession = sample_name) with
    | some s => s.accession
    | none => ""
  { accession := Amap.getD row "srx" ""
    title := Amap.getD row "experiment_title" ""
    study_ref := Amap.getD row "study_accession" ""
    sample_ref := sample_accession
    library_name := Amap.getD row "library_name" ""
    library_strategy := Amap.getD row "library_strategy" ""
    library_source := Amap.getD row "library_source" ""
    library_selection := Amap.getD row "library_selection" ""
    library_layout := Amap.getD row "library_layout" (Amap.getD row "read_type" "")
    nominal_length := Amap.getD row "nominal_length" ""
    platform_type := Amap.getD row "platform_type" (Amap.getD row "data_source" "")
    instrument_model := Amap.getD row "instrument_model" "" }

/-- The experiment-building loop of `from_pep`: one `Experiment` per first
occurrence of each distinct `srx` value (`experiment_map` tracked as the
`seen` accumulator). -/
def buildExps (samples : List Sample) : List RowMap → List String → List Experiment
  | [], _ => []
  | row :: rest, seen =>
    let acc := Amap.getD row "srx" ""
    if acc ∈ seen then buildExps samples rest seen
    else mkExpFromRow samples row :: buildExps samples rest (acc :: seen)

/-- The `while f'file_{i}' in row` loop of `from_pep`; the fuel `|row| + 2`
strictly dominates the first index at which the key is missing. -/
def collectFiles (row : RowMap) : Nat → Nat → List OutputFile
  | 0, _ => []
  | fuel + 1, i =>
    if Amap.contains row ("file_" ++ natStr i) then
      let url := Amap.getD row ("file_" ++ natStr i) ""
      (if pyTruthy url then
        [{ filename := lastSegAfter url '/'
           size := Amap.getD row ("file_" ++ natStr i ++ "_size") ""
           date := Amap.getD row ("file_" ++ natStr i ++ "_date") ""
           url := url
           md5 := Amap.getD row ("file_" ++ natStr i ++ "_md5") "" }]
       else []) ++ collectFiles row fuel (i + 1)
    else []

/-- `from_pep`'s construction of one `Output` from a subsamples-CSV row. -/
def outputFromRow (row : RowMap) : Output :=
  { accession := Amap.getD row "srr" ""
    title := Amap.getD row "subsample_name" ""
    experiment_ref := Amap.getD row "srx" ""
    total_spots := Amap.getD row "total_spots" ""
    total_bases := Amap.getD row "total_bases" ""
    size := Amap.getD row "size" ""
    published := Amap.getD row "published" ""
    files := collectFiles row (row.length + 2) 1
    nreads := Amap.getD row "nreads" ""
    nspots := Amap.getD row "nspots" ""
    a_count := Amap.getD row "a_count" ""
    c_count := Amap.getD row "c_count" ""
    g_count := Amap.getD row "g_count" ""
    t_count := Amap.getD row "t_count" ""
    n_count := Amap.getD row "n_count" "" }

/-- The samples-reading loop of `from_pep`: each row is appended to
`samples_data` and then entered into `sample_map` keyed by
`row['sample_name']`; a row lacking that key — the samples CSV header has
no `sample_name` column — raises `KeyError` before anything is built
(`sample_map` is never read afterwards, so its only observable effect is
this error path). -/
def readSamplesLoop : List RowMap → Except String (List RowMap)
  | [] => Except.ok []
  | row :: rest =>
    match Amap.get? row "sample_name" with
    | none => Except.error "KeyError: sample_name"
    | some _ =>
      match readSamplesLoop rest with
      | Except.error e => Except.error e
      | Except.ok rs => Except.ok (row :: rs)

/-- The `GenomicData` value `from_pep` constructs once its reading loops
have passed (the loop returns `samples_data` unchanged, i.e. the read
rows themselves); `today` stands for the current date used as a fallback
value. -/
def fromPepData (pep : Pep) (today : String) : GenomicData :=
  let samplesRows := readCsv pep.samples_csv
  let subsampleRows := readCsv pep.subsamples_csv
  let samples := samplesRows.map sampleFromRow
  { project := fromPepProject pep.config today
    samples := ⟨samples⟩
    experiments := ⟨buildExps samples subsampleRows []⟩
    outputs := ⟨subsampleRows.map outputFromRow⟩ }

/-- `GenomicData.from_pep`: reads the two CSVs, raising `KeyError` when
the samples CSV has a row but no `sample_name` column, and otherwise
building the project, samples, experiments and outputs. -/
def fromPep (pep : Pep) (today : String) : Except String GenomicData :=
  match readSamplesLoop (readCsv pep.samples_csv) with
  | Except.error e => Except.error e
  | Except.ok _ => Except.ok (fromPepData pep today)

/-! ## `to_rocrate`

GUID generation is performed by the external `Generate*` collaborators,
which are specified (spec §1) to allocate a fresh unique persistent
identifier per entity; this is modelled as an injective function of a
running counter. The graph nodes are modelled down to the fields the
verified claims are about (guids, cross-reference edges, the instrument
dedup key, the root keywords); the cell-line side lookup around sample
nodes and the `generated` back-reference fill-in, which touch no claimed
output, are not modelled. -/

/-- Fresh-identifier minting of the external id-generation collaborator. -/
def mint (n : Nat) : String := "guid-" ++ natStr n

/-- `f"{platform_type}_{instrument_model}"`, the instrument dedup key. -/
def instrKey (e : Experiment) : String := e.platform_type ++ "_" ++ e.instrument_model

/-- The root-crate keyword list (`crate_keywords`): static tags, the
organism name when truthy, each data type with every `'e'` removed
(`dt.replace('e', '')`), and the project data type when truthy. -/
def crateKeywords (p : Project) : List String :=
  (["bioproject", "bioinformatics"] ++
      (if pyTruthy p.organism_name then [p.organism_name] else []) ++
      p.data_types.map (fun dt => pyDropChar dt 'e')) ++
    (if pyTruthy p.project_data_type then [p.project_data_type] else [])

structure InstrNode where
  guid : String
  name : String
  manufacturer : String
  model : String
deriving DecidableEq, Repr

structure ExpNode where
  guid : String
  accession : String
  name : String
  usedInstrument : List String
  usedSample : List String
deriving DecidableEq, Repr

structure DsNode where
  guid : String
  accession : String
  name : String
  generatedBy : List String
deriving DecidableEq, Repr

/-- Mutable state threaded through the three `to_rocrate` passes. -/
structure RoBuild where
  ctr : Nat
  idMap : RowMap
  instrMap : RowMap
  instrNodes : List InstrNode
  expNodes : List ExpNode
  expObjs : List (String × ExpNode)
  expGuids : RowMap
  dsNodes : List DsNode
  sampleGuids : List String
deriving DecidableEq, Repr

def RoBuild.init : RoBuild := ⟨0, [], [], [], [], [], [], [], []⟩

/-- Sample pass: mint a guid, record `id_mapping[accession] = guid`. -/
def roSampleStep (st : RoBuild) (s : Sample) : RoBuild :=
  let gid := mint st.ctr
  { st with
    ctr := st.ctr + 1
    idMap := Amap.set st.idMap s.accession gid
    sampleGuids := st.sampleGuids ++ [gid] }

/-- `if instrument_key not in instrument_software_guids:` create the
Instrument node and record its guid. -/
def roInstrEnsure (st : RoBuild) (e : Experiment) : RoBuild :=
  match Amap.get? st.instrMap (instrKey e) with
  | some _ => st
  | none =>
    let ig := mint st.ctr
    { st with
      ctr := st.ctr + 1
      instrMap := Amap.set st.instrMap (instrKey e) ig
      instrNodes :=
        st.instrNodes ++ [⟨ig, e.instrument_model, e.platform_type, e.instrument_model⟩] }

/-- The Experiment node built while processing `e` in state `st` (after the
instrument ensure): `usedInstrument` from the dedup map, `usedSample` from
`id_mapping.get(sample_ref)` with truthiness checks. -/
def roExpNode (st : RoBuild) (e : Experiment) : ExpNode :=
  let st1 := roInstrEnsure st e
  let igid := Amap.getD st1.instrMap (instrKey e) ""
  let usedSamples :=
    match Amap.get? st1.idMap e.sample_ref with
    | some gid => if pyTruthy gid then [gid] else []
    | none => []
  { guid := mint st1.ctr
    accession := e.accession
    name := e.title
    usedInstrument := if pyTruthy igid then [igid] else []
    usedSample := usedSamples }

/-- Experiment pass step. -/
def roExpStep (st : RoBuild) (e : Experiment) : RoBuild :=
  let st1 := roInstrEnsure st e
  let node := roExpNode st e
  { st1 with
    ctr := st1.ctr + 1
    idMap := Amap.set st1.idMap e.accession node.guid
    expGuids := Amap.set st1.expGuids e.accession node.guid
    expNodes := st1.expNodes ++ [node]
    expObjs := Amap.set st1.expObjs e.accession node }

/-- The Dataset node built for an output:
`generatedBy=[experiment_guids.get(experiment_ref, "")]`. -/
def roDsNode (st : RoBuild) (o : Output) : DsNode :=
  { guid := mint st.ctr
    accession := o.accession
    name := o.title
    generatedBy := [Amap.getD st.expGuids o.experiment_ref ""] }

/-- Output pass step. -/
def roOutStep (st : RoBuild) (o : Output) : RoBuild :=
  let node := roDsNode st o
  { st with
    ctr := st.ctr + 1
    idMap := Amap.set st.idMap o.accession node.guid
    dsNodes := st.dsNodes ++ [node] }

/-- The observable result of `to_rocrate`: the root keywords and the graph
nodes with their cross-reference edges. `expNodes` lists the Experiment
node constructed for each experiment in collection order;
`appendedExpNodes` is `list(experiment_objects.values())`, the nodes
actually bulk-appended in step 5. -/
structure RoCrate where
  keywords : List String
  sampleGuids : List String
  instrNodes : List InstrNode
  expNodes : List ExpNode
  appendedExpNodes : List ExpNode
  dsNodes : List DsNode
deriving DecidableEq, Repr

/-- `GenomicData.to_rocrate`. -/
def toRocrate (g : GenomicData) : RoCrate :=
  let st1 := g.samples.items.foldl roSampleStep RoBuild.init
  let st2 := g.experiments.items.foldl roExpStep st1
  let st3 := g.outputs.items.foldl roOutStep st2
  { keywords := crateKeywords g.project
    sampleGuids := st3.sampleGuids
    instrNodes := st3.instrNodes
    expNodes := st3.expNodes
    appendedExpNodes := st3.expObjs.map (·.2)
    dsNodes := st3.dsNodes }

/-! ## `from_rocrate`

Graph entities are modelled as records of the keys the code reads
(`Option` marking possibly-absent entries); `{"@id": ...}` / plain-string /
single-vs-list reference forms, which the code normalizes inline, are
modelled as the normalized list of referenced ids. `Experiment(...)`
construction goes through pydantic validation: per `experiment.py` all
twelve fields are required, so a keyword-argument set lacking one raises
`ValidationError` — modelled by `validateExperiment` over the argument
record. -/

/-- Python `pat in s` (substring containment). -/
def hasSubAux (pat : List Char) : List Char → Bool
  | [] => pat.isPrefixOf []
  | c :: cs => pat.isPrefixOf (c :: cs) || hasSubAux pat cs

def hasSub (s pat : String) : Bool := hasSubAux pat.data s.data

/-- Python `str.split()` (whitespace split, empties discarded). -/
def splitWhiteAux : List Char → List Char → List String
  | [], acc => if acc.isEmpty then [] else [String.mk acc.reverse]
  | c :: cs, acc =>
    if c = ' ' ∨ c = '\t' ∨ c = '\n' then
      if acc.isEmpty then splitWhiteAux cs []
      else String.mk acc.reverse :: splitWhiteAux cs []
    else splitWhiteAux cs (c :: acc)

def splitWhite (s : String) : List String := splitWhiteAux s.data []

/-- An entity's `@type`: a JSON string or a list (the root dataset). -/
inductive RoType where
  | str (s : String)
  | list (ls : List String)
deriving DecidableEq, Repr

/-- An RO-Crate graph entity, as the record of the keys `from_rocrate`
reads. `publisherName` / `creatorName` stand for `sdPublisher` / `creator`
dict entries (`none` when absent or not a dict); `extraAttrs` are the
remaining key/value pairs (string-rendered), the source of
`Sample.attributes`. -/
structure REntity where
  id : String := ""
  type : RoType := .str ""
  accession : Option String := none
  name : Option String := none
  title : Option String := none
  description : Option String := none
  keywords : Option (List String) := none
  identifier : Option String := none
  publisherName : Option String := none
  creatorName : Option String := none
  datePublished : Option String := none
  dateCreated : Option String := none
  command : Option String := none
  library_name : Option String := none
  library_strategy : Option String := none
  library_source : Option String := none
  library_selection : Option String := none
  library_layout : Option String := none
  nominal_length : Option String := none
  instrument_model : Option String := none
  platform_type : Option String := none
  scientific_name : Option String := none
  taxon_id : Option String := none
  usedSoftware : Option (List String) := none
  usedDataset : Option (List String) := none
  generatedBy : Option (List String) := none
  contentUrl : Option (List String) := none
  size : Option String := none
  md5 : Option String := none
  total_spots : Option String := none
  total_bases : Option String := none
  nreads : Option String := none
  nspots : Option String := none
  bcA : Option String := none
  bcC : Option String := none
  bcG : Option String := none
  bcT : Option String := none
  bcN : Option String := none
  extraAttrs : RowMap := []
deriving DecidableEq, Repr

/-- The keyword arguments of an `Experiment(...)` call. -/
structure ExperimentArgs where
  accession : Option String := none
  title : Option String := none
  study_ref : Option String := none
  sample_ref : Option String := none
  library_name : Option String := none
  library_strategy : Option String := none
  library_source : Option String := none
  library_selection : Option String := none
  library_layout : Option String := none
  nominal_length : Option String := none
  platform_type : Option String := none
  instrument_model : Option String := none
deriving DecidableEq, Repr

/-- First field required by `experiment.py` (declaration order) that the
keyword arguments do not supply. -/
def missingExpField (a : ExperimentArgs) : Option String :=
  if a.accession.isNone then some "accession"
  else if a.title.isNone then some "title"
  else if a.study_ref.isNone then some "study_ref"
  else if a.sample_ref.isNone then some "sample_ref"
  else if a.library_name.isNone then some "library_name"
  else if a.library_strategy.isNone then some "library_strategy"
  else if a.library_source.isNone then some "library_source"
  else if a.library_selection.isNone then some "library_selection"
  else if a.library_layout.isNone then some "library_layout"
  else if a.nominal_length.isNone then some "nominal_length"
  else if a.platform_type.isNone then some "platform_type"
  else if a.instrument_model.isNone then some "instrument_model"
  else none

/-- Pydantic validation of an `Experiment(...)` call: every field of
`experiment.py` is required (none has a default), so a missing keyword
argument raises `ValidationError`. -/
def validateExperiment (a : ExperimentArgs) : Except String Experiment :=
  match missingExpField a with
  | some f => .error ("ValidationError: field required: " ++ f)
  | none =>
    .ok
      { accession := a.accession.getD ""
        title := a.title.getD ""
        study_ref := a.study_ref.getD ""
        sample_ref := a.sample_ref.getD ""
        library_name := a.library_name.getD ""
        library_strategy := a.library_strategy.getD ""
        library_source := a.library_source.getD ""
        library_selection := a.library_selection.getD ""
        library_layout := a.library_layout.getD ""
        nominal_length := a.nominal_length.getD ""
        platform_type := a.platform_type.getD ""
        instrument_model := a.instrument_model.getD "" }

/-- Single-pass partition of the graph by type tag. -/
structure RoPartition where
  entities : List (String × REntity) := []
  samples : List REntity := []
  computations : List REntity := []
  software : List REntity := []
  datasets : List REntity := []
  root : Option REntity := none
deriving Repr

def partitionGraph (graph : List REntity) : RoPartition :=
  graph.foldl
    (fun p ent =>
      let p := { p with entities := Amap.set p.entities ent.id ent }
      match ent.type with
      | .list _ => { p with root := some ent }
      | .str t =>
        if hasSub t "Sample" then { p with samples := p.samples ++ [ent] }
        else if hasSub t "Computation" then { p with computations := p.computations ++ [ent] }
        else if hasSub t "Software" then { p with software := p.software ++ [ent] }
        else if hasSub t "Dataset" && !(ent.id = "./") then
          { p with datasets := p.datasets ++ [ent] }
        else p)
    {}

/-- `from_rocrate`'s `Project` from the root dataset. -/
def roProject (root : REntity) (today : String) : Project :=
  { id := root.identifier.getD "unknown"
    accession := root.identifier.getD (root.name.getD "unknown")
    archive := root.publisherName.getD "Unknown"
    organism_name :=
      match (root.keywords.getD []).find? (fun k => hasSub k "sapiens" || hasSub k "elegans") with
      | some k => k
      | none => ""
    title := root.name.getD ""
    description := root.description.getD ""
    release_date := root.datePublished.getD today
    submitted_date := root.dateCreated.getD today
    organization_role := "owner"
    organization_type := "center"
    organization_name := root.creatorName.getD ""
    access := "public" }

/-- `from_rocrate`'s `Sample` from a Sample entity. -/
def roSample (ent : REntity) : Sample :=
  { accession := ent.accession.getD ent.id
    title := ent.name.getD (ent.title.getD "")
    scientific_name := ent.scientific_name.getD ""
    taxon_id := ent.taxon_id.getD ""
    attributes := ent.extraAttrs }

/-- The keyword-vocabulary fallback for the library descriptor fields (runs
only while the respective field is still empty). -/
def keywordCascade (ks : List String) (st0 so0 se0 la0 : String) :
    String × String × String × String :=
  ks.foldl
    (fun acc k =>
      let st := acc.1
      let so := acc.2.1
      let se := acc.2.2.1
      let la := acc.2.2.2
      ( if st = "" ∧ k ∈ ["RNA-Seq", "WGS", "ChIP-Seq", "Bisulfite-Seq"] then k else st,
        if so = "" ∧ k ∈ ["GENOMIC", "TRANSCRIPTOMIC", "METAGENOMIC"] then k else so,
        if se = "" ∧ k ∈ ["PCR", "RANDOM", "Hybrid Selection"] then k else se,
        if la = "" ∧ k ∈ ["PAIRED", "SINGLE"] then k else la ))
    (st0, so0, se0, la0)

/-- Instrument/platform resolution by following `usedSoftware` references
into the entity index. -/
def resolveInstr (entities : List (String × REntity)) (ids : List String) (im0 pt0 : String) :
    String × String :=
  ids.foldl
    (fun acc sid =>
      let im := acc.1
      let pt := acc.2
      match Amap.get? entities sid with
      | none => (im, pt)
      | some sw =>
        let im' :=
          if im = "" ∧ sw.instrument_model.isSome then sw.instrument_model.getD ""
          else if im = "" ∧ sw.name.isSome then sw.name.getD ""
          else im
        let pt' :=
          if pt = "" ∧ sw.platform_type.isSome then sw.platform_type.getD ""
          else if pt = "" ∧ sw.keywords.isSome then
            match (sw.keywords.getD []).filter
                (fun k => pyUpper k ∈ ["ILLUMINA", "PACBIO", "NANOPORE", "OXFORD"]) with
            | [] => pt
            | k :: _ => k
          else pt
        (im', pt'))
    (im0, pt0)

/-- The keyword arguments of the `Experiment(...)` call `from_rocrate`
issues for one resolved sample reference of a Computation entity. Note the
call site (GenomicData.py lines 1016–1030) passes no `study_ref`. -/
def roCompArgs (entities : List (String × REntity)) (c : REntity) : String → ExperimentArgs :=
  let accession := c.accession.getD ("exp-" ++ lastSegAfter c.id '-')
  let library_name := c.library_name.getD ""
  let ls0 := c.library_strategy.getD ""
  let lsrc0 := c.library_source.getD ""
  let lsel0 := c.library_selection.getD ""
  let llay0 := c.library_layout.getD ""
  let nominal_length := c.nominal_length.getD ""
  let cascaded :=
    if ls0 = "" then
      let command := c.command.getD ""
      let ls' :=
        if hasSub (pyLower command) "sequencing" then
          match splitWhite command with
          | [] => ls0
          | w :: _ => w
        else ls0
      keywordCascade (c.keywords.getD []) ls' lsrc0 lsel0 llay0
    else (ls0, lsrc0, lsel0, llay0)
  let im0 := c.instrument_model.getD ""
  let pt0 := c.platform_type.getD ""
  let resolved :=
    if im0 = "" ∨ pt0 = "" then resolveInstr entities (c.usedSoftware.getD []) im0 pt0
    else (im0, pt0)
  fun sref =>
    { accession := some accession
      title := some (c.name.getD "")
      study_ref := none
      sample_ref := some sref
      library_name := some library_name
      library_strategy := some cascaded.1
      library_source := some cascaded.2.1
      library_selection := some cascaded.2.2.1
      library_layout := some cascaded.2.2.2
      nominal_length := some nominal_length
      platform_type := some resolved.2
      instrument_model := some resolved.1 }

/-- The fan-out loop `for sample_ref in sample_refs:` — unresolved (`None`)
and falsy (`""`) references are skipped, each remaining one constructs an
`Experiment`. -/
def roExpsForComp (argsFor : String → ExperimentArgs) :
    List (Option String) → Except String (List Experiment)
  | [] => .ok []
  | none :: rest => roExpsForComp argsFor rest
  | some a :: rest =>
    if a = "" then roExpsForComp argsFor rest
    else do
      let e ← validateExperiment (argsFor a)
      let es ← roExpsForComp argsFor rest
      .ok (e :: es)

/-- The Computation pass: accumulating the experiment list and
`computation_id_to_experiment` (last constructed experiment per entity id). -/
def roBuildExperiments (entities : List (String × REntity)) (sampleMap : RowMap) :
    List REntity → List Experiment × List (String × Experiment) →
    Except String (List Experiment × List (String × Experiment))
  | [], acc => .ok acc
  | c :: cs, acc => do
    let refs := (c.usedDataset.getD []).map (fun i => Amap.get? sampleMap i)
    let es ← roExpsForComp (roCompArgs entities c) refs
    let cmap := es.foldl (fun m e => Amap.set m c.id e) acc.2
    roBuildExperiments entities sampleMap cs (acc.1 ++ es, cmap)

/-- The Dataset pass for one entity: resolve `generatedBy` against the
constructed experiments, dropping the output when unresolved. -/
def roOutput (cmap : List (String × Experiment)) (ds : REntity) : Option Output :=
  if ds.id = "./" || (match ds.type with | .str t => hasSub t "Sample" | .list _ => false) then
    none
  else
    let accession := ds.accession.getD ("run-" ++ lastSegAfter ds.id '-')
    let experiment_ref :=
      match ds.generatedBy with
      | none => ""
      | some ids => ((ids.filterMap (fun i => Amap.get? cmap i)).map (·.accession)).headD ""
    if experiment_ref = "" then none
    else
      some
        { accession := accession
          title := ds.name.getD ""
          experiment_ref := experiment_ref
          total_spots := ds.total_spots.getD ""
          total_bases := ds.total_bases.getD ""
          size := ds.size.getD ""
          published := ds.datePublished.getD ""
          files :=
            (ds.contentUrl.getD []).map
              (fun url =>
                { filename := lastSegAfter url '/'
                  size := ds.size.getD ""
                  date := ds.dateCreated.getD ""
                  url := url
                  md5 := ds.md5.getD "" })
          nreads := ds.nreads.getD ""
          nspots := ds.nspots.getD ""
          a_count := ds.bcA.getD ""
          c_count := ds.bcC.getD ""
          g_count := ds.bcG.getD ""
          t_count := ds.bcT.getD ""
          n_count := ds.bcN.getD "" }

/-- `GenomicData.from_rocrate` (`today` stands for the current date used as
a fallback value). A missing root dataset is the fatal resource-not-found
case; a pydantic `ValidationError` from `Experiment(...)` propagates. -/
def fromRocrate (today : String) (graph : List REntity) : Except String GenomicData := do
  let p := partitionGraph graph
  match p.root with
  | none => .error "AttributeError: graph has no root dataset"
  | some root =>
    let sampleMap :=
      p.samples.foldl (fun m ent => Amap.set m ent.id (ent.accession.getD ent.id)) []
    let res ← roBuildExperiments p.entities sampleMap p.computations ([], [])
    .ok
      { project := roProject root today
        samples := ⟨p.samples.map roSample⟩
        experiments := ⟨res.1⟩
        outputs := ⟨p.datasets.filterMap (roOutput res.2)⟩ }

/-! ## Small evaluation lemmas -/

theorem pyOr_none (b : String) : pyOr none b = b := rfl

theorem pyOr_some_ne {a : String} (b : String) (h : a ≠ "") : pyOr (some a) b = a := by
  simp [pyOr, pyOrS, h]

theorem pyOr_some_empty (b : String) : pyOr (some "") b = b := by
  simp [pyOr, pyOrS]

/-! ## Claim C8: root-crate keywords -/

/-- What the claim's words describe for a data-type entry: only the
trailing `'e'` characters stripped. -/
def specStripTrailingE (s : String) : String :=
  String.mk ((s.data.reverse.dropWhile (fun c => c = 'e')).reverse)

def projC8 : Project :=
  { id := "P8", accession := "P8", data_types := ["gene"] }

def gC8 : GenomicData :=
  { project := projC8, samples := ⟨[]⟩, experiments := ⟨[]⟩, outputs := ⟨[]⟩ }

/-- C8 counterexample: for the data type `"gene"` the claim's
trailing-stripping gives `"gen"`, but `to_rocrate` emits `"gn"` — every
`'e'` is removed, not only trailing ones — so the claimed keyword list is
not produced. -/
theorem claim8_counterexample :
    specStripTrailingE "gene" = "gen" ∧
    (toRocrate gC8).keywords = ["bioproject", "bioinformatics", "gn"] ∧
    "gen" ∉ (toRocrate gC8).keywords := by
  refine ⟨by decide, by decide, by decide⟩

/-- C8 (amended): the root crate keywords are the static tags
`"bioproject"`, `"bioinformatics"`, plus the organism name when non-empty,
plus each `Project.data_types` entry with every `'e'` character removed
(all occurrences, anywhere in the string), plus `project_data_type` when
non-empty. -/
theorem claim8_keywords (g : GenomicData) :
    (toRocrate g).keywords =
      ["bioproject", "bioinformatics"] ++
        (if g.project.organism_name = "" then [] else [g.project.organism_name]) ++
        g.project.data_types.map (fun dt => String.mk (dt.data.filter (fun c => !(c = 'e')))) ++
        (if g.project.project_data_type = "" then [] else [g.project.project_data_type]) := by
  show crateKeywords g.project = _
  unfold crateKeywords pyDropChar pyTruthy
  by_cases h1 : g.project.organism_name = "" <;>
    by_cases h2 : g.project.project_data_type = "" <;>
      simp [h1, h2, List.append_assoc]

/-! ## Claim C2: accession fallback in `from_json` -/

def dC2 : JsonData := { biosamples := [{ scientific_name := some "Homo sapiens" }] }

/-- C2 counterexample: a biosample with neither `accession` nor `title`
does not get the empty string — the Sample chain continues into
`scientific_name`. -/
theorem claim2_counterexample :
    dC2.biosamples.map (·.accession) = [none] ∧
    dC2.biosamples.map (·.title) = [none] ∧
    (fromJson dC2).samples.items.map (·.accession) = ["Homo sapiens"] ∧
    ("Homo sapiens" : String) ≠ "" := by
  refine ⟨by decide, by decide, by decide, by decide⟩

/-- C2 (amended): in `from_json` a missing `accession` falls back to
`title` for every entity kind; when `title` is also missing, Project,
Experiment and Output records get the empty string (the value of
`title.getD ""`), while a Sample record falls back further to
`scientific_name` before the empty string. -/
theorem claim2_fallback (d : JsonData) :
    (d.bioproject.accession = none →
      (fromJson d).project.accession = d.bioproject.title.getD "") ∧
    (∀ i (hb : i < d.biosamples.length) (hs : i < (fromJson d).samples.items.length),
      (d.biosamples.get ⟨i, hb⟩).accession = none →
        (∀ t, (d.biosamples.get ⟨i, hb⟩).title = some t → t ≠ "" →
            ((fromJson d).samples.items.get ⟨i, hs⟩).accession = t) ∧
        ((d.biosamples.get ⟨i, hb⟩).title = none →
            ((fromJson d).samples.items.get ⟨i, hs⟩).accession =
              (d.biosamples.get ⟨i, hb⟩).scientific_name.getD "") ∧
        ((d.biosamples.get ⟨i, hb⟩).title = some "" →
            ((fromJson d).samples.items.get ⟨i, hs⟩).accession =
              (d.biosamples.get ⟨i, hb⟩).scientific_name.getD "")) ∧
    (∀ i (he : i < d.experiments.length) (hx : i < (fromJson d).experiments.items.length),
      (d.experiments.get ⟨i, he⟩).accession = none →
        ((fromJson d).experiments.items.get ⟨i, hx⟩).accession =
          (d.experiments.get ⟨i, he⟩).title.getD "") ∧
    (∀ i (hr : i < d.runs.length) (ho : i < (fromJson d).outputs.items.length),
      (d.runs.get ⟨i, hr⟩).accession = none →
        ((fromJson d).outputs.items.get ⟨i, ho⟩).accession =
          (d.runs.get ⟨i, hr⟩).title.getD "") := by
  refine ⟨?_, ?_, ?_, ?_⟩
  · intro h
    show (fromJsonProject d.bioproject).accession = _
    simp [fromJsonProject, h, pyOr]
  · intro i hb hs h
    simp only [List.get_eq_getElem] at h ⊢
    have hget : (fromJson d).samples.items[i] =
        fromJsonSample (sampleToStudyMap d.experiments) (studiesMap d.studies)
          d.biosamples[i] := by
      show (d.biosamples.map _)[i] = _
      simp
    refine ⟨?_, ?_, ?_⟩
    · intro t ht hne
      rw [hget]
      simp [fromJsonSample, h, ht, pyOr, pyOrS, hne]
    · intro ht
      rw [hget]
      simp [fromJsonSample, h, ht, pyOr]
    · intro ht
      rw [hget]
      simp [fromJsonSample, h, ht, pyOr, pyOrS]
  · intro i he hx h
    simp only [List.get_eq_getElem] at h ⊢
    have hget : (fromJson d).experiments.items[i] =
        fromJsonExperiment d.experiments[i] := by
      show (d.experiments.map _)[i] = _
      simp
    rw [hget]
    simp [fromJsonExperiment, h, pyOr]
  · intro i hr ho h
    simp only [List.get_eq_getElem] at h ⊢
    have hget : (fromJson d).outputs.items[i] =
        fromJsonOutput d.runs[i] := by
      show (d.runs.map _)[i] = _
      simp
    rw [hget]
    simp [fromJsonOutput, h, pyOr]

def dC2w : JsonData :=
  { bioproject := {}
    biosamples := [{ title := some "T" }]
    experiments := [{}]
    runs := [{}] }

theorem claim2_fallback_witness :
    (fromJson dC2w).project.accession = "" ∧
    ((fromJson dC2w).samples.items.get ⟨0, by decide⟩).accession = "T" ∧
    ((fromJson dC2w).experiments.items.get ⟨0, by decide⟩).accession = "" ∧
    ((fromJson dC2w).outputs.items.get ⟨0, by decide⟩).accession = "" :=
  ⟨(claim2_fallback dC2w).1 rfl,
   ((claim2_fallback dC2w).2.1 0 (by decide) (by decide) rfl).1 "T" rfl (by decide),
   (claim2_fallback dC2w).2.2.1 0 (by decide) (by decide) rfl,
   (claim2_fallback dC2w).2.2.2 0 (by decide) (by decide) rfl⟩

/-! ## Claim C10: the experiment-building loop of `from_pep` -/

/-- The samples-reading loop returns the rows unchanged when every row
carries the `sample_name` key. -/
theorem readSamplesLoop_ok (rows : List RowMap)
    (h : ∀ row ∈ rows, Amap.contains row "sample_name" = true) :
    readSamplesLoop rows = Except.ok rows := by
  induction rows with
  | nil => rfl
  | cons row rest ih =>
    have h1 : (Amap.get? row "sample_name").isSome = true :=
      h row (List.mem_cons_self _ _)
    obtain ⟨v, hv⟩ := Option.isSome_iff_exists.1 h1
    have hrest := ih (fun r hr => h r (List.mem_cons_of_mem _ hr))
    simp only [readSamplesLoop, hv, hrest]

/-- A normal return of `from_pep` is the constructed `GenomicData`. -/
theorem fromPep_eq_ok {pep : Pep} {today : String} {g : GenomicData}
    (h : fromPep pep today = Except.ok g) : g = fromPepData pep today := by
  unfold fromPep at h
  cases hm : readSamplesLoop (readCsv pep.samples_csv) with
  | error e => rw [hm] at h; cases h
  | ok rs => rw [hm] at h; exact (Except.ok.inj h).symm

theorem mkExpFromRow_accession (samples : List Sample) (row : RowMap) :
    (mkExpFromRow samples row).accession = Amap.getD row "srx" "" := rfl

/-- Every built experiment's accession avoids the `seen` accumulator, and
the experiment is built from the first row carrying its `srx` value. -/
theorem buildExps_spec :
    ∀ (rows : List RowMap) (seen : List String) (samples : List Sample) (e : Experiment),
      e ∈ buildExps samples rows seen →
      e.accession ∉ seen ∧
      ∃ r, rows.find? (fun row => Amap.getD row "srx" "" = e.accession) = some r ∧
        e = mkExpFromRow samples r := by
  intro rows
  induction rows with
  | nil => intro seen samples e he; simp [buildExps] at he
  | cons row rest ih =>
    intro seen samples e he
    by_cases hseen : Amap.getD row "srx" "" ∈ seen
    · simp only [buildExps, hseen, if_true] at he
      obtain ⟨hnot, r, hfind, heq⟩ := ih seen samples e he
      have hne : Amap.getD row "srx" "" ≠ e.accession := by
        intro hcontra
        exact hnot (hcontra ▸ hseen)
      refine ⟨hnot, r, ?_, heq⟩
      simp [List.find?, hne, hfind]
    · simp only [buildExps, hseen, if_false, List.mem_cons] at he
      rcases he with he | he
      · subst he
        refine ⟨by simp [mkExpFromRow_accession, hseen], row, ?_, rfl⟩
        simp [List.find?, mkExpFromRow_accession]
      · obtain ⟨hnot, r, hfind, heq⟩ := ih (Amap.getD row "srx" "" :: seen) samples e he
        simp only [List.mem_cons, not_or] at hnot
        refine ⟨hnot.2, r, ?_, heq⟩
        have hne : Amap.getD row "srx" "" ≠ e.accession := fun hc => hnot.1 hc.symm
        simp [List.find?, hne, hfind]

/-- Accessions of the built experiments are pairwise distinct. -/
theorem buildExps_nodup :
    ∀ (rows : List RowMap) (seen : List String) (samples : List Sample),
      ((buildExps samples rows seen).map (·.accession)).Nodup := by
  intro rows
  induction rows with
  | nil => intro seen samples; simp [buildExps]
  | cons row rest ih =>
    intro seen samples
    by_cases hseen : Amap.getD row "srx" "" ∈ seen
    · simpa [buildExps, hseen] using ih seen samples
    · simp only [buildExps, hseen, if_false, List.map_cons, List.nodup_cons]
      refine ⟨?_, ih _ samples⟩
      intro hmem
      obtain ⟨e, he, hacc⟩ := List.mem_map.1 hmem
      obtain ⟨hnot, -⟩ := buildExps_spec rest _ samples e he
      rw [mkExpFromRow_accession] at hacc
      exact hnot (by rw [hacc]; exact List.mem_cons_self _ _)

/-- Membership: an accession is built exactly when some row carries it and
it is not already in `seen`. -/
theorem buildExps_mem :
    ∀ (rows : List RowMap) (seen : List String) (samples : List Sample) (a : String),
      a ∈ (buildExps samples rows seen).map (·.accession) ↔
        (a ∈ rows.map (fun r => Amap.getD r "srx" "") ∧ a ∉ seen) := by
  intro rows
  induction rows with
  | nil => intro seen samples a; simp [buildExps]
  | cons row rest ih =>
    intro seen samples a
    by_cases hseen : Amap.getD row "srx" "" ∈ seen
    · simp only [buildExps, hseen, if_true, List.map_cons, List.mem_cons]
      rw [ih]
      constructor
      · rintro ⟨hmem, hnot⟩
        exact ⟨Or.inr hmem, hnot⟩
      · rintro ⟨hor, hnot⟩
        rcases hor with heq | hmem
        · exact absurd (heq ▸ hseen) hnot
        · exact ⟨hmem, hnot⟩
    · simp only [buildExps, hseen, if_false, List.map_cons, List.mem_cons,
        mkExpFromRow_accession]
      rw [ih]
      constructor
      · rintro (heq | ⟨hmem, hnot⟩)
        · exact ⟨Or.inl heq, heq ▸ hseen⟩
        · simp only [List.mem_cons, not_or] at hnot
          exact ⟨Or.inr hmem, hnot.2⟩
      · rintro ⟨hor, hnot⟩
        by_cases heq : a = Amap.getD row "srx" ""
        · exact Or.inl heq
        · rcases hor with h | hmem
          · exact absurd h heq
          · exact Or.inr ⟨hmem, by simp [hnot, heq]⟩

/-- C10 (amended): whenever `from_pep` returns normally (it raises
`KeyError` when the samples CSV has a row but no `sample_name` column), it
builds exactly one Experiment per distinct `srx` value of the subsample
rows, first-row wins (all fields, including the `sample_ref` resolution
against the normalized sample accessions, come from the first row with
that `srx`), later rows only contribute Outputs, and the resulting
experiment accessions are pairwise distinct. -/
theorem claim10_from_pep_experiments (pep : Pep) (today : String) (g : GenomicData)
    (h : fromPep pep today = Except.ok g) :
    g.experiments.items =
      buildExps ((readCsv pep.samples_csv).map sampleFromRow) (readCsv pep.subsamples_csv) [] ∧
    (g.experiments.items.map (·.accession)).Nodup ∧
    (∀ a, a ∈ g.experiments.items.map (·.accession) ↔
        a ∈ (readCsv pep.subsamples_csv).map (fun r => Amap.getD r "srx" "")) ∧
    (∀ e ∈ g.experiments.items,
      ∃ r, (readCsv pep.subsamples_csv).find?
            (fun row => Amap.getD row "srx" "" = e.accession) = some r ∧
        e = mkExpFromRow ((readCsv pep.samples_csv).map sampleFromRow) r) ∧
    g.outputs.items = (readCsv pep.subsamples_csv).map outputFromRow := by
  have hg := fromPep_eq_ok h
  subst hg
  refine ⟨rfl, buildExps_nodup _ _ _, ?_, ?_, rfl⟩
  · intro a
    rw [show (fromPepData pep today).experiments.items =
        buildExps ((readCsv pep.samples_csv).map sampleFromRow) (readCsv pep.subsamples_csv) []
      from rfl]
    rw [buildExps_mem]
    simp
  · intro e he
    obtain ⟨-, r, hfind, heq⟩ := buildExps_spec (readCsv pep.subsamples_csv) []
      ((readCsv pep.samples_csv).map sampleFromRow) e he
    exact ⟨r, hfind, heq⟩

def pepC10 : Pep :=
  { config :=
      { name := "p", pep_version := "2.1.0", sample_table := "s.csv",
        subsample_table := "ss.csv", experiment_metadata := [], description := "" }
    samples_csv :=
      some ⟨["sample_name", "sample_accession"],
            [[("sample_name", "samd1"), ("sample_accession", "SAMD1")]]⟩
    subsamples_csv :=
      some ⟨["sample_name", "srx", "srr"],
            [[("sample_name", "samd1"), ("srx", "X"), ("srr", "R1")],
             [("sample_name", "samd1"), ("srx", "X"), ("srr", "R2")],
             [("sample_name", "samd1"), ("srx", "Y"), ("srr", "R3")]]⟩ }

theorem claim10_from_pep_experiments_witness :
    fromPep pepC10 "td" = Except.ok (fromPepData pepC10 "td") ∧
    ((fromPepData pepC10 "td").experiments.items.map (·.accession)).Nodup ∧
    (∃ r, (readCsv pepC10.subsamples_csv).find?
          (fun row => Amap.getD row "srx" "" =
            ((fromPepData pepC10 "td").experiments.items.get ⟨0, by decide⟩).accession) = some r ∧
      (fromPepData pepC10 "td").experiments.items.get ⟨0, by decide⟩ =
        mkExpFromRow ((readCsv pepC10.samples_csv).map sampleFromRow) r) :=
  ⟨rfl,
   (claim10_from_pep_experiments pepC10 "td" (fromPepData pepC10 "td") rfl).2.1,
   (claim10_from_pep_experiments pepC10 "td" (fromPepData pepC10 "td") rfl).2.2.2.1 _
     (by decide)⟩

def pepC10c : Pep :=
  { config :=
      { name := "p", pep_version := "2.1.0", sample_table := "s.csv",
        subsample_table := "ss.csv", experiment_metadata := [], description := "" }
    samples_csv := some ⟨["x"], [[("x", "1")]]⟩
    subsamples_csv := some ⟨["srx"], [[("srx", "X")]]⟩ }

/-- C10 counterexample: a PEP whose samples CSV has one row but no
`sample_name` column makes `from_pep` raise `KeyError` at
`sample_map[row['sample_name']]` and construct nothing, although the
subsamples CSV carries a distinct `srx` value — so "for every PEP input,
from_pep constructs exactly one Experiment per distinct srx value" fails
on this input. -/
theorem claim10_counterexample :
    fromPep pepC10c "td" = Except.error "KeyError: sample_name" ∧
    (readCsv pepC10c.subsamples_csv).map (fun r => Amap.getD r "srx" "") = ["X"] :=
  ⟨rfl, by decide⟩

/-! ## Claim C6: file-column flattening in subsample rows -/

/-- The four file columns of (1-indexed) position `j`. -/
def fkeys (j : Nat) : List String :=
  ["file_" ++ natStr j, "file_" ++ natStr j ++ "_md5",
   "file_" ++ natStr j ++ "_size", "file_" ++ natStr j ++ "_date"]

/-- The file-column entries appended by the enumeration loop, as a plain
association list. -/
def fileEntries : List OutputFile → Nat → RowMap
  | [], _ => []
  | f :: fs, i =>
    ("file_" ++ natStr i, f.url) :: ("file_" ++ natStr i ++ "_md5", f.md5) ::
    ("file_" ++ natStr i ++ "_size", f.size) :: ("file_" ++ natStr i ++ "_date", f.date) ::
    fileEntries fs (i + 1)

/-- The claimed 4×N column names for `n` files starting at index `i`. -/
def fileColNames : Nat → Nat → List String
  | 0, _ => []
  | n + 1, i =>
    ("file_" ++ natStr i) :: ("file_" ++ natStr i ++ "_md5") ::
    ("file_" ++ natStr i ++ "_size") :: ("file_" ++ natStr i ++ "_date") ::
    fileColNames n (i + 1)

theorem fileEntries_keys (fs : List OutputFile) (i : Nat) :
    Amap.keys (fileEntries fs i) = fileColNames fs.length i := by
  induction fs generalizing i with
  | nil => rfl
  | cons f fs ih =>
    simp only [fileEntries, Amap.keys, List.map_cons, fileColNames, List.length_cons]
    rw [show List.map (fun x => x.1) (fileEntries fs (i + 1)) =
        Amap.keys (fileEntries fs (i + 1)) from rfl, ih (i + 1)]

theorem digits_eq_append_underscore_false {d1 : List Char}
    (h1 : ∀ c ∈ d1, c ∈ decDigits) (d2 r : List Char) (h : d1 = d2 ++ '_' :: r) : False := by
  have hmem : '_' ∈ d1 := by
    rw [h]
    simp
  exact underscore_not_digit (h1 _ hmem)

theorem digits_append_underscore_inj :
    ∀ {d1 d2 : List Char}, (∀ c ∈ d1, c ∈ decDigits) → (∀ c ∈ d2, c ∈ decDigits) →
      ∀ {r1 r2 : List Char}, d1 ++ '_' :: r1 = d2 ++ '_' :: r2 → d1 = d2 ∧ r1 = r2 := by
  intro d1
  induction d1 with
  | nil =>
    intro d2 h1 h2 r1 r2 h
    cases d2 with
    | nil => simpa using h
    | cons c cs =>
      simp only [List.nil_append, List.cons_append, List.cons.injEq] at h
      have hc : c ∈ decDigits := h2 c (by simp)
      rw [← h.1] at hc
      exact absurd hc underscore_not_digit
  | cons a as ih =>
    intro d2 h1 h2 r1 r2 h
    cases d2 with
    | nil =>
      simp only [List.nil_append, List.cons_append, List.cons.injEq] at h
      have ha : a ∈ decDigits := h1 a (by simp)
      rw [h.1] at ha
      exact absurd ha underscore_not_digit
    | cons b bs =>
      simp only [List.cons_append, List.cons.injEq] at h
      obtain ⟨hab, hrest⟩ := h
      have := ih (fun c hc => h1 c (List.mem_cons_of_mem _ hc))
        (fun c hc => h2 c (List.mem_cons_of_mem _ hc)) hrest
      exact ⟨by rw [hab, this.1], this.2⟩

/-- The four suffixes of the file columns. -/
def fileSuffixes : List String := ["", "_md5", "_size", "_date"]

/-- Two file-column names agree only at the same index and the same
suffix. -/
theorem fileKey_eq_imp {i j : Nat} {s t : String}
    (hs : s ∈ fileSuffixes) (ht : t ∈ fileSuffixes)
    (h : ("file_" ++ natStr i) ++ s = ("file_" ++ natStr j) ++ t) : i = j ∧ s = t := by
  rw [String.append_assoc, String.append_assoc] at h
  have h2 : natStr i ++ s = natStr j ++ t := string_append_left_cancel h
  have hd : (natStr i).data ++ s.data = (natStr j).data ++ t.data := by
    rw [← String.data_append, ← String.data_append, h2]
  have hdi := natStr_all_digits i
  have hdj := natStr_all_digits j
  have keyinj : (natStr i).data = (natStr j).data → i = j := fun hij =>
    natStr_inj (String.ext hij)
  fin_cases hs <;> fin_cases ht <;> simp only [] at hd <;>
    first
      | exact ⟨keyinj (by simpa using hd), rfl⟩
      | (exfalso
         exact digits_eq_append_underscore_false hdi _ _ (by simpa using hd))
      | (exfalso
         exact digits_eq_append_underscore_false hdj _ _ (by simpa using hd.symm))
      | (obtain ⟨h1, hr⟩ := digits_append_underscore_inj hdi hdj (by simpa using hd)
         first
           | exact ⟨keyinj h1, rfl⟩
           | simp at hr)

theorem fkey_plain_ne_plain {i j : Nat} (h : i ≠ j) :
    "file_" ++ natStr i ≠ "file_" ++ natStr j := fun he =>
  h (natStr_inj (string_append_left_cancel he))

theorem fkey_plain_ne_suffix (i j : Nat) (r : List Char) :
    "file_" ++ natStr i ≠ ("file_" ++ natStr j) ++ String.mk ('_' :: r) := by
  intro he
  rw [String.append_assoc] at he
  have h2 := string_append_left_cancel he
  have hd : (natStr i).data = (natStr j).data ++ '_' :: r := by
    have := congrArg String.data h2
    rwa [String.data_append] at this
  exact digits_eq_append_underscore_false (natStr_all_digits i) _ _ hd

theorem fkey_suffix_ne_suffix {i j : Nat} {r1 r2 : List Char}
    (h : ¬(i = j ∧ r1 = r2)) :
    ("file_" ++ natStr i) ++ String.mk ('_' :: r1) ≠
      ("file_" ++ natStr j) ++ String.mk ('_' :: r2) := by
  intro he
  rw [String.append_assoc, String.append_assoc] at he
  have h2 := string_append_left_cancel he
  have hd : (natStr i).data ++ '_' :: r1 = (natStr j).data ++ '_' :: r2 := by
    have := congrArg String.data h2
    rwa [String.data_append, String.data_append] at this
  obtain ⟨h1, hr⟩ :=
    digits_append_underscore_inj (natStr_all_digits i) (natStr_all_digits j) hd
  exact h ⟨natStr_inj (String.ext h1), hr⟩

theorem md5_str : ("_md5" : String) = String.mk ['_', 'm', 'd', '5'] := rfl

theorem size_str : ("_size" : String) = String.mk ['_', 's', 'i', 'z', 'e'] := rfl

theorem date_str : ("_date" : String) = String.mk ['_', 'd', 'a', 't', 'e'] := rfl

/-- Setting a batch of fresh, pairwise-distinct keys appends them. -/
theorem set_fresh_list :
    ∀ (entries : RowMap) (row : RowMap),
      (∀ kv ∈ entries, Amap.get? row kv.1 = none) → (Amap.keys entries).Nodup →
      entries.foldl (fun r kv => Amap.set r kv.1 kv.2) row = row ++ entries := by
  intro entries
  induction entries with
  | nil => intro row _ _; simp
  | cons e es ih =>
    intro row hfresh hnodup
    simp only [List.foldl_cons]
    rw [Amap.set_eq_append row e.1 e.2 (hfresh e (List.mem_cons_self _ _))]
    simp only [Amap.keys, List.map_cons, List.nodup_cons] at hnodup
    have hfresh' : ∀ kv ∈ es, Amap.get? (row ++ [e]) kv.1 = none := by
      intro kv hkv
      rw [Amap.get?_append_right _ (hfresh kv (List.mem_cons_of_mem _ hkv))]
      have hne : e.1 ≠ kv.1 := by
        intro hc
        exact hnodup.1 (hc ▸ List.mem_map_of_mem (·.1) hkv)
      simp [Amap.get?, hne]
    rw [ih (row ++ [e]) hfresh' hnodup.2]
    simp

theorem get?_quad_none {K : String} (a b c d : String × String)
    (ha : a.1 ≠ K) (hb : b.1 ≠ K) (hc : c.1 ≠ K) (hd : d.1 ≠ K) :
    Amap.get? [a, b, c, d] K = none := by
  simp [Amap.get?, ha, hb, hc, hd]

/-- The four file-column entries of one file at index `i`. -/
def fileQuad (f : OutputFile) (i : Nat) : RowMap :=
  [("file_" ++ natStr i, f.url), ("file_" ++ natStr i ++ "_md5", f.md5),
   ("file_" ++ natStr i ++ "_size", f.size), ("file_" ++ natStr i ++ "_date", f.date)]

theorem addFileCols_cons (row : RowMap) (i : Nat) (f : OutputFile) (fs : List OutputFile) :
    addFileCols row i (f :: fs) =
      addFileCols ((fileQuad f i).foldl (fun r kv => Amap.set r kv.1 kv.2) row) (i + 1) fs := rfl

theorem fileQuad_keys_nodup (i : Nat) : (Amap.keys (fileQuad f i)).Nodup := by
  refine List.nodup_cons.2 ⟨?_, List.nodup_cons.2 ⟨?_, List.nodup_cons.2
    ⟨?_, List.nodup_singleton _⟩⟩⟩
  · intro h
    rcases List.mem_cons.1 h with h | h
    · exact absurd h (by rw [md5_str]; exact fkey_plain_ne_suffix i i ['m', 'd', '5'])
    rcases List.mem_cons.1 h with h | h
    · exact absurd h (by rw [size_str]; exact fkey_plain_ne_suffix i i ['s', 'i', 'z', 'e'])
    rcases List.mem_cons.1 h with h | h
    · exact absurd h (by rw [date_str]; exact fkey_plain_ne_suffix i i ['d', 'a', 't', 'e'])
    · exact absurd h (List.not_mem_nil _)
  · intro h
    rcases List.mem_cons.1 h with h | h
    · exact absurd h (by
        rw [md5_str, size_str]
        exact fkey_suffix_ne_suffix (by simp))
    rcases List.mem_cons.1 h with h | h
    · exact absurd h (by
        rw [md5_str, date_str]
        exact fkey_suffix_ne_suffix (by simp))
    · exact absurd h (List.not_mem_nil _)
  · intro h
    rcases List.mem_cons.1 h with h | h
    · exact absurd h (by
        rw [size_str, date_str]
        exact fkey_suffix_ne_suffix (by simp))
    · exact absurd h (List.not_mem_nil _)

/-- Freshness of all file columns from index `i` on. -/
def FileFresh (row : RowMap) (i : Nat) : Prop :=
  ∀ j, i ≤ j →
    Amap.get? row ("file_" ++ natStr j) = none ∧
    Amap.get? row ("file_" ++ natStr j ++ "_md5") = none ∧
    Amap.get? row ("file_" ++ natStr j ++ "_size") = none ∧
    Amap.get? row ("file_" ++ natStr j ++ "_date") = none

theorem fileQuad_get?_none {i j : Nat} (f : OutputFile) (hne : i ≠ j) :
    (Amap.get? (fileQuad f i) ("file_" ++ natStr j) = none ∧
     Amap.get? (fileQuad f i) ("file_" ++ natStr j ++ "_md5") = none ∧
     Amap.get? (fileQuad f i) ("file_" ++ natStr j ++ "_size") = none ∧
     Amap.get? (fileQuad f i) ("file_" ++ natStr j ++ "_date") = none) := by
  refine ⟨?_, ?_, ?_, ?_⟩
  · exact get?_quad_none _ _ _ _
      (fkey_plain_ne_plain hne)
      (by rw [md5_str]; exact (fkey_plain_ne_suffix j i ['m', 'd', '5']).symm)
      (by rw [size_str]; exact (fkey_plain_ne_suffix j i ['s', 'i', 'z', 'e']).symm)
      (by rw [date_str]; exact (fkey_plain_ne_suffix j i ['d', 'a', 't', 'e']).symm)
  · exact get?_quad_none _ _ _ _
      (by rw [md5_str]; exact fkey_plain_ne_suffix i j ['m', 'd', '5'])
      (by rw [md5_str]; exact fkey_suffix_ne_suffix (by simp [hne]))
      (by rw [size_str, md5_str]; exact fkey_suffix_ne_suffix (by simp))
      (by rw [date_str, md5_str]; exact fkey_suffix_ne_suffix (by simp))
  · exact get?_quad_none _ _ _ _
      (by rw [size_str]; exact fkey_plain_ne_suffix i j ['s', 'i', 'z', 'e'])
      (by rw [md5_str, size_str]; exact fkey_suffix_ne_suffix (by simp))
      (by rw [size_str]; exact fkey_suffix_ne_suffix (by simp [hne]))
      (by rw [date_str, size_str]; exact fkey_suffix_ne_suffix (by simp))
  · exact get?_quad_none _ _ _ _
      (by rw [date_str]; exact fkey_plain_ne_suffix i j ['d', 'a', 't', 'e'])
      (by rw [md5_str, date_str]; exact fkey_suffix_ne_suffix (by simp))
      (by rw [size_str, date_str]; exact fkey_suffix_ne_suffix (by simp))
      (by rw [date_str]; exact fkey_suffix_ne_suffix (by simp [hne]))

/-- The enumeration loop appends exactly the file-column entries when all
file columns from the start index on are fresh in the row. -/
theorem addFileCols_eq_append :
    ∀ (fs : List OutputFile) (row : RowMap) (i : Nat), FileFresh row i →
      addFileCols row i fs = row ++ fileEntries fs i := by
  intro fs
  induction fs with
  | nil => intro row i _; simp [addFileCols, fileEntries]
  | cons f fs ih =>
    intro row i hfresh
    rw [addFileCols_cons]
    obtain ⟨h1, h2, h3, h4⟩ := hfresh i le_rfl
    have hquad : (fileQuad f i).foldl (fun r kv => Amap.set r kv.1 kv.2) row =
        row ++ fileQuad f i := by
      apply set_fresh_list _ _ _ (fileQuad_keys_nodup i)
      intro kv hkv
      rcases List.mem_cons.1 hkv with h | h
      · rw [h]; exact h1
      rcases List.mem_cons.1 h with h | h
      · rw [h]; exact h2
      rcases List.mem_cons.1 h with h | h
      · rw [h]; exact h3
      rcases List.mem_cons.1 h with h | h
      · rw [h]; exact h4
      · exact absurd h (List.not_mem_nil _)
    rw [hquad]
    have hfresh' : FileFresh (row ++ fileQuad f i) (i + 1) := by
      intro j hj
      have hij : i ≠ j := by omega
      obtain ⟨q1, q2, q3, q4⟩ := fileQuad_get?_none f hij
      obtain ⟨r1, r2, r3, r4⟩ := hfresh j (by omega)
      exact ⟨by rw [Amap.get?_append_right _ r1]; exact q1,
        by rw [Amap.get?_append_right _ r2]; exact q2,
        by rw [Amap.get?_append_right _ r3]; exact q3,
        by rw [Amap.get?_append_right _ r4]; exact q4⟩
    rw [ih _ _ hfresh']
    show (row ++ fileQuad f i) ++ fileEntries fs (i + 1) = row ++ fileEntries (f :: fs) i
    rw [List.append_assoc]
    rfl

theorem subsampleRowLit_keys (s : Sample) (e : Experiment) (o : Output) :
    Amap.keys (subsampleRowLit s e o) =
      ["sample_name", "subsample_name", "srr", "srx", "total_spots", "total_bases",
       "size", "published", "nreads", "nspots", "a_count", "c_count", "g_count",
       "t_count", "n_count", "read_type", "data_source", "library_name",
       "library_strategy", "library_source", "library_selection", "library_layout",
       "nominal_length", "instrument_model", "platform_type", "experiment_title"] := rfl

theorem subsampleRowLit_no_file (s : Sample) (e : Experiment) (o : Output) :
    ∀ k ∈ Amap.keys (subsampleRowLit s e o), strStartsWith "file_" k = false := by
  rw [subsampleRowLit_keys]
  decide

theorem fkey_prefixed_plain (j : Nat) :
    strStartsWith "file_" ("file_" ++ natStr j) = true := strStartsWith_append _ _

theorem fkey_prefixed_sfx (j : Nat) (t : String) :
    strStartsWith "file_" ("file_" ++ natStr j ++ t) = true := by
  rw [String.append_assoc]
  exact strStartsWith_append _ _

theorem get?_none_of_fileKey {m : RowMap}
    (hnf : ∀ k ∈ Amap.keys m, strStartsWith "file_" k = false) {K : String}
    (hp : strStartsWith "file_" K = true) : Amap.get? m K = none := by
  rw [Amap.get?_eq_none_iff]
  intro hk
  rw [hnf K hk] at hp
  cases hp

theorem subsampleRowLit_fileFresh (s : Sample) (e : Experiment) (o : Output) :
    FileFresh (subsampleRowLit s e o) 1 := by
  intro j _
  refine ⟨?_, ?_, ?_, ?_⟩ <;>
    exact get?_none_of_fileKey (subsampleRowLit_no_file s e o)
      (by first | exact fkey_prefixed_plain j | exact fkey_prefixed_sfx j _)

/-- The subsample row is its literal part plus the file-column entries. -/
theorem mkSubsampleRow_eq (s : Sample) (e : Experiment) (o : Output) :
    mkSubsampleRow s e o = subsampleRowLit s e o ++ fileEntries o.files 1 :=
  addFileCols_eq_append _ _ _ (subsampleRowLit_fileFresh s e o)

theorem fileColNames_prefixed :
    ∀ (n i : Nat), ∀ k ∈ fileColNames n i, strStartsWith "file_" k = true := by
  intro n
  induction n with
  | zero => intro i k hk; simp [fileColNames] at hk
  | succ n ih =>
    intro i k hk
    simp only [fileColNames, List.mem_cons] at hk
    rcases hk with rfl | rfl | rfl | rfl | hk
    · exact fkey_prefixed_plain i
    · exact fkey_prefixed_sfx i _
    · exact fkey_prefixed_sfx i _
    · exact fkey_prefixed_sfx i _
    · exact ih (i + 1) k hk

theorem mkSubsampleRow_file_keys (s : Sample) (e : Experiment) (o : Output) :
    (Amap.keys (mkSubsampleRow s e o)).filter (strStartsWith "file_") =
      fileColNames o.files.length 1 := by
  rw [mkSubsampleRow_eq]
  rw [show Amap.keys (subsampleRowLit s e o ++ fileEntries o.files 1) =
      Amap.keys (subsampleRowLit s e o) ++ Amap.keys (fileEntries o.files 1) from
    List.map_append _ _ _]
  rw [List.filter_append, fileEntries_keys]
  have h1 : (Amap.keys (subsampleRowLit s e o)).filter (strStartsWith "file_") = [] := by
    rw [subsampleRowLit_keys]
    decide
  rw [h1, List.nil_append]
  exact List.filter_eq_self.2 (fileColNames_prefixed _ _)

theorem fileEntries_url :
    ∀ (fs : List OutputFile) (start i : Nat) (h : i < fs.length),
      Amap.get? (fileEntries fs start) ("file_" ++ natStr (start + i)) =
        some ((fs.get ⟨i, h⟩).url) := by
  intro fs
  induction fs with
  | nil => intro start i h; exact absurd h (by simp)
  | cons f fs ih =>
    intro start i h
    cases i with
    | zero => simp [fileEntries, Amap.get?]
    | succ i' =>
      have e0 : ("file_" ++ natStr start) ≠ "file_" ++ natStr (start + (i' + 1)) :=
        fkey_plain_ne_plain (by omega)
      have e1 : ("file_" ++ natStr start ++ "_md5") ≠ "file_" ++ natStr (start + (i' + 1)) := by
        rw [md5_str]
        exact (fkey_plain_ne_suffix (start + (i' + 1)) start ['m', 'd', '5']).symm
      have e2 : ("file_" ++ natStr start ++ "_size") ≠ "file_" ++ natStr (start + (i' + 1)) := by
        rw [size_str]
        exact (fkey_plain_ne_suffix (start + (i' + 1)) start ['s', 'i', 'z', 'e']).symm
      have e3 : ("file_" ++ natStr start ++ "_date") ≠ "file_" ++ natStr (start + (i' + 1)) := by
        rw [date_str]
        exact (fkey_plain_ne_suffix (start + (i' + 1)) start ['d', 'a', 't', 'e']).symm
      have harith : start + (i' + 1) = (start + 1) + i' := by omega
      simp only [fileEntries, Amap.get?, e0, e1, e2, e3, if_false]
      rw [harith]
      exact ih (start + 1) i' (by simpa using h)

/-- C6: a subsample row's file-related keys are exactly the 4×N columns
`file_i`, `file_i_md5`, `file_i_size`, `file_i_date` for `i = 1..N` in
file-list order, `file_i` holding the i-th file's url, and no other
`file_*` key occurs. -/
theorem claim6_file_columns (g : GenomicData) (t : Sample × Experiment × Output)
    (ht : t ∈ subsampleTriples g) :
    (Amap.keys (mkSubsampleRow t.1 t.2.1 t.2.2)).filter (strStartsWith "file_") =
      fileColNames t.2.2.files.length 1 ∧
    ∀ i (h : i < t.2.2.files.length),
      Amap.get? (mkSubsampleRow t.1 t.2.1 t.2.2) ("file_" ++ natStr (i + 1)) =
        some ((t.2.2.files.get ⟨i, h⟩).url) := by
  refine ⟨mkSubsampleRow_file_keys _ _ _, ?_⟩
  intro i h
  rw [mkSubsampleRow_eq]
  rw [Amap.get?_append_right _
    (get?_none_of_fileKey (subsampleRowLit_no_file _ _ _) (fkey_prefixed_plain (i + 1)))]
  have harith : i + 1 = 1 + i := by omega
  rw [harith]
  exact fileEntries_url t.2.2.files 1 i h

def sC6 : Sample := { accession := "S" }

def eC6 : Experiment :=
  { accession := "E", title := "", study_ref := "", sample_ref := "S",
    library_name := "", library_strategy := "", library_source := "",
    library_selection := "", library_layout := "", nominal_length := "",
    platform_type := "", instrument_model := "" }

def oC6 : Output :=
  { accession := "R", experiment_ref := "E",
    files := [{ url := "u1", md5 := "m1", size := "s1", date := "d1" }, { url := "u2" }] }

def gC6 : GenomicData :=
  { project := { id := "P", accession := "P" }
    samples := ⟨[sC6]⟩, experiments := ⟨[eC6]⟩, outputs := ⟨[oC6]⟩ }

def tC6 : Sample × Experiment × Output := (sC6, eC6, oC6)

theorem claim6_file_columns_witness :
    tC6 ∈ subsampleTriples gC6 ∧
    (Amap.keys (mkSubsampleRow tC6.1 tC6.2.1 tC6.2.2)).filter (strStartsWith "file_") =
      fileColNames tC6.2.2.files.length 1 ∧
    Amap.get? (mkSubsampleRow tC6.1 tC6.2.1 tC6.2.2) ("file_" ++ natStr 1) = some "u1" :=
  ⟨by decide, (claim6_file_columns gC6 tC6 (by decide)).1,
   (claim6_file_columns gC6 tC6 (by decide)).2 0 (by decide)⟩

/-! ## Claim C5: lossless attribute carry across the PEP round trip -/

theorem mergeAttrs_cons (row : RowMap) (kv : String × String) (rest : RowMap) :
    mergeAttrs row (kv :: rest) =
      mergeAttrs (if Amap.contains row kv.1 then row else Amap.set row kv.1 kv.2) rest := rfl

theorem mergeAttrs_get?_of_some :
    ∀ (attrs row : RowMap) {k : String} {v : String}, Amap.get? row k = some v →
      Amap.get? (mergeAttrs row attrs) k = some v := by
  intro attrs
  induction attrs with
  | nil => intro row k v h; exact h
  | cons kv rest ih =>
    intro row k v h
    rw [mergeAttrs_cons]
    by_cases hc : Amap.contains row kv.1
    · rw [if_pos hc]
      exact ih row h
    · rw [if_neg hc]
      have hk : kv.1 ≠ k := by
        intro hkk
        rw [hkk] at hc
        simp [Amap.contains, h] at hc
      exact ih _ (by rw [Amap.get?_set_ne _ _ _ _ hk]; exact h)

theorem mergeAttrs_get?_new :
    ∀ (attrs row : RowMap) {k : String} {v : String}, Amap.get? attrs k = some v →
      Amap.contains row k = false → Amap.get? (mergeAttrs row attrs) k = some v := by
  intro attrs
  induction attrs with
  | nil => intro row k v h _; simp [Amap.get?] at h
  | cons kv rest ih =>
    intro row k v h hc
    rw [mergeAttrs_cons]
    by_cases hk : kv.1 = k
    · have hv : kv.2 = v := by
        simp only [Amap.get?, hk, if_true] at h
        exact Option.some.inj h
      have hcr : Amap.contains row kv.1 = false := hk ▸ hc
      rw [if_neg (by rw [hcr]; exact Bool.false_ne_true)]
      exact mergeAttrs_get?_of_some rest _ (by rw [← hv, ← hk]; exact Amap.get?_set_self _ _ _)
    · simp only [Amap.get?, hk, if_false] at h
      by_cases hcc : Amap.contains row kv.1
      · rw [if_pos hcc]
        exact ih row h hc
      · rw [if_neg hcc]
        refine ih _ h ?_
        simp only [Amap.contains, Amap.get?_set_ne _ _ _ _ hk]
        exact hc

theorem mem_dedupFirstAux :
    ∀ (l seen : List String) (a : String),
      a ∈ dedupFirstAux l seen ↔ (a ∈ l ∧ a ∉ seen) := by
  intro l
  induction l with
  | nil => intro seen a; simp [dedupFirstAux]
  | cons x xs ih =>
    intro seen a
    by_cases hx : x ∈ seen
    · simp only [dedupFirstAux, hx, if_true]
      rw [ih]
      constructor
      · rintro ⟨h1, h2⟩
        exact ⟨List.mem_cons_of_mem _ h1, h2⟩
      · rintro ⟨h1, h2⟩
        rcases List.mem_cons.1 h1 with rfl | h1
        · exact absurd hx h2
        · exact ⟨h1, h2⟩
    · simp only [dedupFirstAux, hx, if_false, List.mem_cons]
      rw [ih]
      constructor
      · rintro (rfl | ⟨h1, h2⟩)
        · exact ⟨Or.inl rfl, hx⟩
        · simp only [List.mem_cons, not_or] at h2
          exact ⟨Or.inr h1, h2.2⟩
      · rintro ⟨rfl | h1, h2⟩
        · exact Or.inl rfl
        · by_cases hax : a = x
          · exact Or.inl hax
          · exact Or.inr ⟨h1, by simp [h2, hax]⟩

theorem mem_dedupFirst (l : List String) (a : String) : a ∈ dedupFirst l ↔ a ∈ l := by
  simp [dedupFirst, mem_dedupFirstAux]

theorem mem_insertSorted (x a : String) :
    ∀ (l : List String), a ∈ insertSorted x l ↔ (a = x ∨ a ∈ l) := by
  intro l
  induction l with
  | nil => simp [insertSorted]
  | cons y ys ih =>
    show a ∈ (if strLe x y then x :: y :: ys else y :: insertSorted x ys) ↔ _
    by_cases hle : strLe x y
    · rw [if_pos hle]
      simp
    · rw [if_neg hle]
      simp only [List.mem_cons, ih]
      tauto

theorem mem_sortStrings (a : String) : ∀ (l : List String), a ∈ sortStrings l ↔ a ∈ l := by
  intro l
  induction l with
  | nil => simp [sortStrings]
  | cons x xs ih => simp [sortStrings, mem_insertSorted, ih]

theorem mem_allRowKeys {rows : List RowMap} {r : RowMap} (hr : r ∈ rows) {k : String}
    (hk : k ∈ Amap.keys r) : k ∈ allRowKeys rows :=
  (mem_dedupFirst _ _).2 (List.mem_flatMap.2 ⟨r, hr, hk⟩)

theorem mem_mkFieldnames (imp : List String) {rows : List RowMap} {k : String}
    (h : k ∈ allRowKeys rows) : k ∈ mkFieldnames imp rows := by
  by_cases hk : k ∈ imp
  · exact List.mem_append.2 (Or.inl (List.mem_filter.2 ⟨hk, by simpa using h⟩))
  · refine List.mem_append.2 (Or.inr ?_)
    rw [mem_sortStrings]
    exact List.mem_filter.2 ⟨h, by simpa using hk⟩

theorem get?_csvRound {fn : List String} {k : String} (r : RowMap) (h : k ∈ fn) :
    Amap.get? (csvRound fn r) k = some (Amap.getD r k "") := by
  induction fn with
  | nil => simp at h
  | cons f fs ih =>
    by_cases hf : f = k
    · subst hf
      simp [csvRound, Amap.get?]
    · rcases List.mem_cons.1 h with rfl | h
      · exact absurd rfl hf
      · simp only [csvRound, List.map_cons, Amap.get?, hf, if_false]
        exact ih h

theorem csvRound_uniform {fn : List String} (r : RowMap) {k : String} :
    ∀ p ∈ csvRound fn r, p.1 = k → p.2 = Amap.getD r k "" := by
  intro p hp hk
  obtain ⟨f, -, rfl⟩ := List.mem_map.1 hp
  simp only at hk
  rw [hk]

theorem get?_filter_uniform :
    ∀ (m : RowMap) {k v : String}, (∀ p ∈ m, p.1 = k → p.2 = v) →
      Amap.get? m k = some v → ∀ {pr : String × String → Bool}, pr (k, v) = true →
      Amap.get? (m.filter pr) k = some v := by
  intro m
  induction m with
  | nil => intro k v _ h _ _; simp [Amap.get?] at h
  | cons p rest ih =>
    intro k v huni hget pr hp
    by_cases hk : p.1 = k
    · have hv : p.2 = v := huni p (List.mem_cons_self _ _) hk
      have hpp : pr p = true := by
        have : p = (k, v) := by
          obtain ⟨p1, p2⟩ := p
          simp only at hk hv
          rw [hk, hv]
        rw [this]
        exact hp
      simp only [List.filter_cons, hpp, if_true]
      simp [Amap.get?, hk, hv]
    · simp only [Amap.get?, hk, if_false] at hget
      have ihr := ih (fun q hq hqk => huni q (List.mem_cons_of_mem _ hq) hqk) hget hp
      by_cases hpp : pr p = true
      · simp only [List.filter_cons, hpp, if_true, Amap.get?, hk, if_false]
        exact ihr
      · simp only [List.filter_cons, Bool.not_eq_true] at hpp ⊢
        rw [hpp]
        exact ihr

/-- The sample row before the attribute merge: its keys are the "named"
sample-row columns. -/
def preSampleRow (g : GenomicData) (s : Sample) : RowMap :=
  sampleRowProtocol g (sampleRowStudy (sampleRowLit g.project s) s) s

theorem mkSampleRow_eq_merge (g : GenomicData) (s : Sample) :
    mkSampleRow g s = mergeAttrs (preSampleRow g s) s.attributes := rfl

theorem samplesRows_roundtrip (g : GenomicData) :
    readCsv (toPep g).samples_csv =
      (samplesData g).map (csvRound (mkFieldnames importantSampleFields (samplesData g))) := by
  by_cases h : samplesData g = []
  · simp [toPep, h, readCsv]
  · simp [toPep, h, readCsv]

theorem subsampleRows_roundtrip (g : GenomicData) :
    readCsv (toPep g).subsamples_csv =
      (subsamplesData g).map
        (csvRound (mkFieldnames importantSubsampleFields (subsamplesData g))) := by
  by_cases h : subsamplesData g = []
  · simp [toPep, h, readCsv]
  · simp [toPep, h, readCsv]

theorem fromPep_toPep_sample_items (g : GenomicData) (today : String) :
    (fromPepData (toPep g) today).samples.items =
      ((samplesData g).map
        (csvRound (mkFieldnames importantSampleFields (samplesData g)))).map sampleFromRow := by
  show (readCsv (toPep g).samples_csv).map sampleFromRow = _
  rw [samplesRows_roundtrip]

theorem sampleRowStudy_get?_ne (row : RowMap) (s : Sample) {k : String}
    (h1 : k ≠ "study_accession") (h2 : k ≠ "study_title") (h3 : k ≠ "study_center_name")
    (h4 : k ≠ "study_abstract") (h5 : k ≠ "study_description") :
    Amap.get? (sampleRowStudy row s) k = Amap.get? row k := by
  unfold sampleRowStudy
  by_cases ht : pyTruthyOpt s.study_accession
  · rw [if_pos ht]
    rw [Amap.get?_set_ne _ _ _ _ (Ne.symm h5), Amap.get?_set_ne _ _ _ _ (Ne.symm h4),
      Amap.get?_set_ne _ _ _ _ (Ne.symm h3), Amap.get?_set_ne _ _ _ _ (Ne.symm h2),
      Amap.get?_set_ne _ _ _ _ (Ne.symm h1)]
  · rw [if_neg ht]

theorem sampleRowProtocol_get?_ne (g : GenomicData) (row : RowMap) (s : Sample) {k : String}
    (h : k ≠ "protocol") :
    Amap.get? (sampleRowProtocol g row s) k = Amap.get? row k := by
  unfold sampleRowProtocol
  cases expsForSample g s.accession with
  | nil => rfl
  | cons e es => exact Amap.get?_set_ne _ _ _ _ (Ne.symm h)

theorem preSampleRow_sample_name (g : GenomicData) (s : Sample) :
    Amap.get? (preSampleRow g s) "sample_name" = some (lowerDash s.accession) := by
  unfold preSampleRow
  rw [sampleRowProtocol_get?_ne g _ s (by decide),
    sampleRowStudy_get?_ne _ s (by decide) (by decide) (by decide) (by decide) (by decide)]
  rfl

theorem mkSampleRow_sample_name (g : GenomicData) (s : Sample) :
    Amap.get? (mkSampleRow g s) "sample_name" = some (lowerDash s.accession) := by
  rw [mkSampleRow_eq_merge]
  exact mergeAttrs_get?_of_some _ _ (preSampleRow_sample_name g s)

theorem contains_csvRound {fn : List String} {k : String} (r : RowMap) (h : k ∈ fn) :
    Amap.contains (csvRound fn r) k = true := by
  show (Amap.get? (csvRound fn r) k).isSome = true
  rw [get?_csvRound r h]
  rfl

/-- `to_pep` writes a `sample_name` column into every samples-CSV row, so
`from_pep` after `to_pep` never hits the `KeyError` path. -/
theorem fromPep_toPep_ok (g : GenomicData) (today : String) :
    fromPep (toPep g) today = Except.ok (fromPepData (toPep g) today) := by
  have hall : ∀ row ∈ readCsv (toPep g).samples_csv,
      Amap.contains row "sample_name" = true := by
    intro row hrow
    rw [samplesRows_roundtrip] at hrow
    obtain ⟨r, hr, rfl⟩ := List.mem_map.1 hrow
    refine contains_csvRound r ?_
    have hmem : "sample_name" ∈ Amap.keys r := by
      simp only [samplesData] at hr
      obtain ⟨s, hs, rfl⟩ := List.mem_map.1 hr
      exact List.mem_map_of_mem (·.1)
        (Amap.mem_of_get?_eq_some (mkSampleRow_sample_name g s))
    exact mem_mkFieldnames _ (mem_allRowKeys hr hmem)
  unfold fromPep
  rw [readSamplesLoop_ok _ hall]

/-- C5 (amended): if a sample's attributes map a key `k` (not one of the
named sample-row columns and not one of `from_pep`'s reserved keys) to a
non-empty value `v`, then `to_pep` merges `(k, v)` into the sample's CSV
row without changing any named column, `from_pep` on the resulting PEP
returns normally, and the re-ingested sample's attributes again map `k`
to `v`. -/
theorem claim5_attr_roundtrip (g : GenomicData) (today : String) (i : Nat)
    (hi : i < g.samples.items.length) (k v : String)
    (hk : Amap.get? (g.samples.items.get ⟨i, hi⟩).attributes k = some v)
    (hv : v ≠ "")
    (hnamed : k ∉ Amap.keys (preSampleRow g (g.samples.items.get ⟨i, hi⟩)))
    (hres : k ∉ reservedSampleKeys) :
    fromPep (toPep g) today = Except.ok (fromPepData (toPep g) today) ∧
    Amap.get? (mkSampleRow g (g.samples.items.get ⟨i, hi⟩)) k = some v ∧
    (∀ c ∈ Amap.keys (preSampleRow g (g.samples.items.get ⟨i, hi⟩)),
      Amap.get? (mkSampleRow g (g.samples.items.get ⟨i, hi⟩)) c =
        Amap.get? (preSampleRow g (g.samples.items.get ⟨i, hi⟩)) c) ∧
    ∀ hi' : i < (fromPepData (toPep g) today).samples.items.length,
      Amap.get? ((fromPepData (toPep g) today).samples.items.get ⟨i, hi'⟩).attributes k =
        some v := by
  set s := g.samples.items.get ⟨i, hi⟩ with hs
  have hcontains : Amap.contains (preSampleRow g s) k = false := by
    have : Amap.get? (preSampleRow g s) k = none := (Amap.get?_eq_none_iff _ _).2 hnamed
    simp [Amap.contains, this]
  have hmerged : Amap.get? (mkSampleRow g s) k = some v := by
    rw [mkSampleRow_eq_merge]
    exact mergeAttrs_get?_new _ _ hk hcontains
  refine ⟨fromPep_toPep_ok g today, hmerged, ?_, ?_⟩
  · intro c hc
    obtain ⟨vc, hvc⟩ := Option.isSome_iff_exists.1 (Amap.get?_isSome_of_mem_keys hc)
    rw [mkSampleRow_eq_merge, mergeAttrs_get?_of_some _ _ hvc, hvc]
  · intro hi'
    have hrow : mkSampleRow g s ∈ samplesData g := by
      simp only [samplesData]
      exact List.mem_map_of_mem _ (by rw [hs]; exact List.get_mem _ _ _)
    have hkfn : k ∈ mkFieldnames importantSampleFields (samplesData g) :=
      mem_mkFieldnames _ (mem_allRowKeys hrow (by
        have := Amap.mem_of_get?_eq_some hmerged
        exact List.mem_map_of_mem (·.1) this))
    have hq : (fromPepData (toPep g) today).samples.items.get? i =
        some (sampleFromRow (csvRound (mkFieldnames importantSampleFields (samplesData g))
          (mkSampleRow g s))) := by
      rw [fromPep_toPep_sample_items]
      simp only [samplesData, List.get?_map]
      rw [show g.samples.items.get? i = some s from by rw [hs]; exact List.get?_eq_get hi]
      rfl
    have hget : (fromPepData (toPep g) today).samples.items.get ⟨i, hi'⟩ =
        sampleFromRow (csvRound (mkFieldnames importantSampleFields (samplesData g))
          (mkSampleRow g s)) := by
      have h2 := List.get?_eq_get hi'
      rw [hq] at h2
      exact (Option.some.inj h2).symm
    rw [hget]
    show Amap.get?
      ((csvRound (mkFieldnames importantSampleFields (samplesData g))
        (mkSampleRow g s)).filter _) k = some v
    refine get?_filter_uniform _ ?_ ?_ ?_
    · intro p hp hpk
      have := csvRound_uniform (mkSampleRow g s) p hp hpk
      rw [this, Amap.getD, hmerged]
      rfl
    · rw [get?_csvRound _ hkfn, Amap.getD, hmerged]
      rfl
    · have hresb : reservedSampleKeys.contains k = false := by
        cases hcb : reservedSampleKeys.contains k
        · rfl
        · exact absurd (List.mem_of_elem_eq_true hcb) hres
      show (!(reservedSampleKeys.contains k) && pyTruthy v) = true
      rw [hresb]
      simp [pyTruthy, hv]

def sC5c : Sample := { accession := "S5", attributes := [("title", "X")] }

def gC5c : GenomicData :=
  { project := { id := "P5", accession := "P5" }
    samples := ⟨[sC5c]⟩, experiments := ⟨[]⟩, outputs := ⟨[]⟩ }

/-- C5 counterexample: the attribute key `"title"` is not a named
sample-row column, so `to_pep` merges it into the CSV row, but `from_pep`
reserves `"title"` for the `Sample.title` field, so the re-ingested
sample's attributes no longer contain it — the round trip is not lossless
for every non-column key. -/
theorem claim5_counterexample :
    "title" ∉ Amap.keys (preSampleRow gC5c sC5c) ∧
    Amap.get? (mkSampleRow gC5c sC5c) "title" = some "X" ∧
    fromPep (toPep gC5c) "td" = Except.ok (fromPepData (toPep gC5c) "td") ∧
    (fromPepData (toPep gC5c) "td").samples.items.map
      (fun s => Amap.get? s.attributes "title") = [none] := by
  refine ⟨by decide, by decide, rfl, by decide⟩

def sC5w : Sample := { accession := "S5w", attributes := [("my_attr", "xyz")] }

def gC5w : GenomicData :=
  { project := { id := "P5w", accession := "P5w" }
    samples := ⟨[sC5w]⟩, experiments := ⟨[]⟩, outputs := ⟨[]⟩ }

theorem claim5_attr_roundtrip_witness :
    fromPep (toPep gC5w) "td" = Except.ok (fromPepData (toPep gC5w) "td") ∧
    Amap.get? (mkSampleRow gC5w (gC5w.samples.items.get ⟨0, by decide⟩)) "my_attr" =
      some "xyz" ∧
    Amap.get? (mkSampleRow gC5w (gC5w.samples.items.get ⟨0, by decide⟩)) "sample_name" =
      Amap.get? (preSampleRow gC5w (gC5w.samples.items.get ⟨0, by decide⟩)) "sample_name" ∧
    Amap.get?
      ((fromPepData (toPep gC5w) "td").samples.items.get ⟨0, by decide⟩).attributes
      "my_attr" = some "xyz" :=
  ⟨(claim5_attr_roundtrip gC5w "td" 0 (by decide) "my_attr" "xyz" (by decide) (by decide)
      (by decide) (by decide)).1,
   (claim5_attr_roundtrip gC5w "td" 0 (by decide) "my_attr" "xyz" (by decide) (by decide)
      (by decide) (by decide)).2.1,
   (claim5_attr_roundtrip gC5w "td" 0 (by decide) "my_attr" "xyz" (by decide) (by decide)
      (by decide) (by decide)).2.2.1 "sample_name" (by decide),
   (claim5_attr_roundtrip gC5w "td" 0 (by decide) "my_attr" "xyz" (by decide) (by decide)
      (by decide) (by decide)).2.2.2 (by decide)⟩

/-! ## Claim C1: PEP round trip of accessions and join resolutions -/

theorem preSampleRow_accession (g : GenomicData) (s : Sample) :
    Amap.get? (preSampleRow g s) "sample_accession" = some s.accession := by
  unfold preSampleRow
  rw [sampleRowProtocol_get?_ne g _ s (by decide),
    sampleRowStudy_get?_ne _ s (by decide) (by decide) (by decide) (by decide) (by decide)]
  rfl

theorem mkSampleRow_accession (g : GenomicData) (s : Sample) :
    Amap.get? (mkSampleRow g s) "sample_accession" = some s.accession := by
  rw [mkSampleRow_eq_merge]
  exact mergeAttrs_get?_of_some _ _ (preSampleRow_accession g s)

/-- The project accession survives the PEP round trip unconditionally. -/
theorem roundtrip_project_accession (g : GenomicData) (today : String) :
    (fromPepData (toPep g) today).project.accession = g.project.accession := rfl

theorem roundtrip_sample_accession (g : GenomicData) {s : Sample}
    (hs : s ∈ g.samples.items) :
    (sampleFromRow (csvRound (mkFieldnames importantSampleFields (samplesData g))
      (mkSampleRow g s))).accession = s.accession := by
  have hrow : mkSampleRow g s ∈ samplesData g := List.mem_map_of_mem _ hs
  have hmem : "sample_accession" ∈ mkFieldnames importantSampleFields (samplesData g) :=
    mem_mkFieldnames _ (mem_allRowKeys hrow
      (List.mem_map_of_mem (·.1) (Amap.mem_of_get?_eq_some (mkSampleRow_accession g s))))
  show Amap.getD (csvRound _ (mkSampleRow g s)) "sample_accession" _ = s.accession
  rw [Amap.getD, get?_csvRound _ hmem, Amap.getD, mkSampleRow_accession g s]
  rfl

/-- The sample accession list survives the PEP round trip unconditionally. -/
theorem roundtrip_sample_accessions (g : GenomicData) (today : String) :
    (fromPepData (toPep g) today).samples.items.map (·.accession) =
      g.samples.items.map (·.accession) := by
  rw [fromPep_toPep_sample_items]
  show (((g.samples.items.map (mkSampleRow g)).map
      (csvRound (mkFieldnames importantSampleFields (samplesData g)))).map
        sampleFromRow).map (fun x => x.accession) = _
  rw [List.map_map, List.map_map, List.map_map]
  refine List.map_congr_left ?_
  intro s hs
  simpa using roundtrip_sample_accession g hs

theorem mkSubsampleRow_srx (s : Sample) (e : Experiment) (o : Output) :
    Amap.get? (mkSubsampleRow s e o) "srx" = some e.accession := by
  rw [mkSubsampleRow_eq]
  exact Amap.get?_append_left _ rfl

theorem mkSubsampleRow_sample_name (s : Sample) (e : Experiment) (o : Output) :
    Amap.get? (mkSubsampleRow s e o) "sample_name" = some (lowerDash s.accession) := by
  rw [mkSubsampleRow_eq]
  exact Amap.get?_append_left _ rfl

theorem subsampleTriples_spec {g : GenomicData} {t : Sample × Experiment × Output}
    (ht : t ∈ subsampleTriples g) :
    t.1 ∈ g.samples.items ∧ t.2.1 ∈ g.experiments.items ∧
    t.2.1.sample_ref = t.1.accession ∧ t.2.2 ∈ g.outputs.items ∧
    t.2.2.experiment_ref = t.2.1.accession := by
  simp only [subsampleTriples, List.mem_flatMap, List.mem_map, expsForSample,
    outsForExperiment, List.mem_filter, decide_eq_true_eq] at ht
  obtain ⟨s, hs, e, ⟨he, href⟩, o, ⟨ho, horef⟩, rfl⟩ := ht
  exact ⟨hs, he, href, ho, horef⟩

theorem find?_lowerDash_map :
    ∀ (l1 l2 : List Sample), l1.map (·.accession) = l2.map (·.accession) → ∀ (t : String),
      Option.map (·.accession) (l1.find? (fun x => lowerDash x.accession = t)) =
        Option.map (·.accession) (l2.find? (fun x => lowerDash x.accession = t)) := by
  intro l1
  induction l1 with
  | nil =>
    intro l2 h t
    cases l2 with
    | nil => rfl
    | cons b bs => simp at h
  | cons a as ih =>
    intro l2 h t
    cases l2 with
    | nil => simp at h
    | cons b bs =>
      simp only [List.map_cons, List.cons.injEq] at h
      obtain ⟨hab, hrest⟩ := h
      by_cases hp : lowerDash a.accession = t
      · rw [List.find?_cons_of_pos _ (by simpa using hp),
          List.find?_cons_of_pos _ (by simp [← hab, hp])]
        simp [hab]
      · rw [List.find?_cons_of_neg _ (by simpa using hp),
          List.find?_cons_of_neg _ (by simp [← hab, hp])]
        exact ih bs hrest t

/-- Injectivity of the `lower().replace("-","_")` normalization on the
sample accessions of a `GenomicData`. -/
def normInj (g : GenomicData) : Prop :=
  ∀ s1 ∈ g.samples.items, ∀ s2 ∈ g.samples.items,
    lowerDash s1.accession = lowerDash s2.accession → s1.accession = s2.accession

theorem find?_self_inj (g : GenomicData) (hinj : normInj g) {s : Sample}
    (hs : s ∈ g.samples.items) :
    Option.map (·.accession)
      (g.samples.items.find? (fun x => lowerDash x.accession = lowerDash s.accession)) =
      some s.accession := by
  have hex : (g.samples.items.find?
      (fun x => lowerDash x.accession = lowerDash s.accession)).isSome :=
    List.find?_isSome.2 ⟨s, hs, by simp⟩
  obtain ⟨s2, hs2⟩ := Option.isSome_iff_exists.1 hex
  have hmem := List.mem_of_find?_eq_some hs2
  have hpred := List.find?_some hs2
  rw [hs2]
  simp only [Option.map_some']
  exact congrArg some (hinj s2 hmem s hs (by simpa using hpred))

theorem mkExpFromRow_sample_ref (samples : List Sample) (row : RowMap) :
    (mkExpFromRow samples row).sample_ref =
      (Option.map (·.accession)
        (samples.find? (fun x => lowerDash x.accession = Amap.getD row "sample_name" ""))).getD
        "" := by
  show (match samples.find? (fun x => lowerDash x.accession = Amap.getD row "sample_name" "") with
    | some s => s.accession
    | none => "") = _
  cases samples.find? (fun x => lowerDash x.accession = Amap.getD row "sample_name" "") <;> rfl

/-- C1 (amended): for a `GenomicData` built by `from_json` on which the
sample-name normalization is injective over the sample accessions,
`from_pep` on the PEP produced by `to_pep` returns normally, and the
round trip preserves the project accession, the sample accession list,
and every re-ingested Experiment matches an original Experiment with the
same accession and the same (resolved) `sample_ref`. -/
theorem claim1_pep_roundtrip (d : JsonData) (today : String)
    (hinj : normInj (fromJson d)) :
    fromPep (toPep (fromJson d)) today =
      Except.ok (fromPepData (toPep (fromJson d)) today) ∧
    (fromPepData (toPep (fromJson d)) today).project.accession =
      (fromJson d).project.accession ∧
    (fromPepData (toPep (fromJson d)) today).samples.items.map (·.accession) =
      (fromJson d).samples.items.map (·.accession) ∧
    ∀ e' ∈ (fromPepData (toPep (fromJson d)) today).experiments.items,
      ∃ e ∈ (fromJson d).experiments.items,
        e.accession = e'.accession ∧ e.sample_ref = e'.sample_ref ∧
        e.sample_ref ∈ (fromJson d).samples.items.map (·.accession) := by
  set g := fromJson d with hg
  refine ⟨fromPep_toPep_ok g today, roundtrip_project_accession g today,
    roundtrip_sample_accessions g today, ?_⟩
  intro e' he'
  have hitems : (fromPepData (toPep g) today).experiments.items =
      buildExps ((readCsv (toPep g).samples_csv).map sampleFromRow)
        (readCsv (toPep g).subsamples_csv) [] := rfl
  rw [hitems] at he'
  obtain ⟨-, r', hfind, heq⟩ := buildExps_spec _ _ _ _ he'
  have hr'mem : r' ∈ readCsv (toPep g).subsamples_csv := List.mem_of_find?_eq_some hfind
  rw [subsampleRows_roundtrip] at hr'mem
  obtain ⟨row, hrowmem, rfl⟩ := List.mem_map.1 hr'mem
  obtain ⟨t, htmem, rfl⟩ := List.mem_map.1 hrowmem
  obtain ⟨hts, hte, htref, hto, htoref⟩ := subsampleTriples_spec htmem
  have hrowdata : mkSubsampleRow t.1 t.2.1 t.2.2 ∈ subsamplesData g :=
    List.mem_map_of_mem _ htmem
  have hsrxmem : "srx" ∈ mkFieldnames importantSubsampleFields (subsamplesData g) :=
    mem_mkFieldnames _ (mem_allRowKeys hrowdata
      (List.mem_map_of_mem (·.1) (Amap.mem_of_get?_eq_some (mkSubsampleRow_srx _ _ _))))
  have hsnmem : "sample_name" ∈ mkFieldnames importantSubsampleFields (subsamplesData g) :=
    mem_mkFieldnames _ (mem_allRowKeys hrowdata
      (List.mem_map_of_mem (·.1)
        (Amap.mem_of_get?_eq_some (mkSubsampleRow_sample_name _ _ _))))
  have hacc : e'.accession = t.2.1.accession := by
    rw [heq, mkExpFromRow_accession, Amap.getD,
      get?_csvRound _ hsrxmem, Amap.getD, mkSubsampleRow_srx]
    rfl
  have hsn : Amap.getD
      (csvRound (mkFieldnames importantSubsampleFields (subsamplesData g))
        (mkSubsampleRow t.1 t.2.1 t.2.2)) "sample_name" "" = lowerDash t.1.accession := by
    rw [Amap.getD, get?_csvRound _ hsnmem, Amap.getD, mkSubsampleRow_sample_name]
    rfl
  have hsref : e'.sample_ref = t.1.accession := by
    rw [heq, mkExpFromRow_sample_ref, hsn]
    have hsamples : ((readCsv (toPep g).samples_csv).map sampleFromRow) =
        (fromPepData (toPep g) today).samples.items := rfl
    rw [hsamples, find?_lowerDash_map _ g.samples.items
      (roundtrip_sample_accessions g today) (lowerDash t.1.accession),
      find?_self_inj g hinj hts]
    rfl
  exact ⟨t.2.1, hte, hacc.symm, by rw [hsref, htref], by
    rw [htref]
    exact List.mem_map_of_mem _ hts⟩

def dC1c : JsonData :=
  { bioproject := { accession := some "P" }
    biosamples := [{ accession := some "AB-C" }, { accession := some "ab_c" }]
    experiments := [{ accession := some "E1", sample_ref := some "ab_c" }]
    runs := [{ accession := some "R1", experiment_ref := some "E1" }] }

/-- C1 counterexample: two sample accessions (`"AB-C"`, `"ab_c"`) collide
under the `lower().replace("-","_")` normalization, so the re-ingested
experiment's `sample_ref` resolves to `"AB-C"` (the first sample whose
normalized accession matches the row's `sample_name`) instead of the
`"ab_c"` it resolved to before the round trip. -/
theorem claim1_counterexample :
    (fromJson dC1c).experiments.items.map (·.sample_ref) = ["ab_c"] ∧
    "ab_c" ∈ (fromJson dC1c).samples.items.map (·.accession) ∧
    fromPep (toPep (fromJson dC1c)) "td" =
      Except.ok (fromPepData (toPep (fromJson dC1c)) "td") ∧
    (fromPepData (toPep (fromJson dC1c)) "td").experiments.items.map (·.accession) = ["E1"] ∧
    (fromJson dC1c).experiments.items.map (·.accession) = ["E1"] ∧
    (fromPepData (toPep (fromJson dC1c)) "td").experiments.items.map (·.sample_ref) =
      ["AB-C"] ∧
    ("AB-C" : String) ≠ "ab_c" := by
  refine ⟨by decide, by decide, rfl, by decide, by decide, by decide, by decide⟩

def dC1w : JsonData :=
  { bioproject := { accession := some "PRJ1" }
    biosamples := [{ accession := some "SAMD1" }]
    experiments := [{ accession := some "EXP1", sample_ref := some "SAMD1" }]
    runs := [{ accession := some "RUN1", experiment_ref := some "EXP1" }] }

instance normInj_decidable (g : GenomicData) : Decidable (normInj g) :=
  inferInstanceAs (Decidable (∀ s1 ∈ g.samples.items, ∀ s2 ∈ g.samples.items,
    lowerDash s1.accession = lowerDash s2.accession → s1.accession = s2.accession))

theorem claim1_pep_roundtrip_witness :
    normInj (fromJson dC1w) ∧
    fromPep (toPep (fromJson dC1w)) "td" =
      Except.ok (fromPepData (toPep (fromJson dC1w)) "td") ∧
    (fromPepData (toPep (fromJson dC1w)) "td").project.accession =
      (fromJson dC1w).project.accession ∧
    (fromPepData (toPep (fromJson dC1w)) "td").samples.items.map (·.accession) =
      (fromJson dC1w).samples.items.map (·.accession) ∧
    ∃ e ∈ (fromJson dC1w).experiments.items,
      e.accession =
        ((fromPepData (toPep (fromJson dC1w)) "td").experiments.items.get
          ⟨0, by decide⟩).accession ∧
      e.sample_ref =
        ((fromPepData (toPep (fromJson dC1w)) "td").experiments.items.get
          ⟨0, by decide⟩).sample_ref ∧
      e.sample_ref ∈ (fromJson dC1w).samples.items.map (·.accession) :=
  ⟨by decide, (claim1_pep_roundtrip dC1w "td" (by decide)).1,
   (claim1_pep_roundtrip dC1w "td" (by decide)).2.1,
   (claim1_pep_roundtrip dC1w "td" (by decide)).2.2.1,
   (claim1_pep_roundtrip dC1w "td" (by decide)).2.2.2 _ (by decide)⟩

/-! ## State lemmas for the `to_rocrate` passes -/

theorem mint_inj {m n : Nat} (h : mint m = mint n) : m = n :=
  natStr_inj (string_append_left_cancel h)

theorem mint_ne_empty (n : Nat) : mint n ≠ "" := by
  intro h
  have hd := congrArg String.data h
  rw [show (mint n).data = "guid-".data ++ (natStr n).data from String.data_append _ _] at hd
  simp at hd

theorem roInstrEnsure_expNodes (st : RoBuild) (e : Experiment) :
    (roInstrEnsure st e).expNodes = st.expNodes := by
  unfold roInstrEnsure
  cases Amap.get? st.instrMap (instrKey e) <;> rfl

theorem roInstrEnsure_idMap (st : RoBuild) (e : Experiment) :
    (roInstrEnsure st e).idMap = st.idMap := by
  unfold roInstrEnsure
  cases Amap.get? st.instrMap (instrKey e) <;> rfl

theorem roInstrEnsure_expGuids (st : RoBuild) (e : Experiment) :
    (roInstrEnsure st e).expGuids = st.expGuids := by
  unfold roInstrEnsure
  cases Amap.get? st.instrMap (instrKey e) <;> rfl

theorem roInstrEnsure_dsNodes (st : RoBuild) (e : Experiment) :
    (roInstrEnsure st e).dsNodes = st.dsNodes := by
  unfold roInstrEnsure
  cases Amap.get? st.instrMap (instrKey e) <;> rfl

theorem roExpStep_expNodes (st : RoBuild) (e : Experiment) :
    (roExpStep st e).expNodes = st.expNodes ++ [roExpNode st e] := by
  show (roInstrEnsure st e).expNodes ++ [roExpNode st e] = _
  rw [roInstrEnsure_expNodes]

theorem roExpStep_idMap (st : RoBuild) (e : Experiment) :
    (roExpStep st e).idMap = Amap.set st.idMap e.accession (roExpNode st e).guid := by
  show Amap.set (roInstrEnsure st e).idMap e.accession (roExpNode st e).guid = _
  rw [roInstrEnsure_idMap]

theorem roExpStep_expGuids (st : RoBuild) (e : Experiment) :
    (roExpStep st e).expGuids = Amap.set st.expGuids e.accession (roExpNode st e).guid := by
  show Amap.set (roInstrEnsure st e).expGuids e.accession (roExpNode st e).guid = _
  rw [roInstrEnsure_expGuids]

theorem roExpStep_dsNodes (st : RoBuild) (e : Experiment) :
    (roExpStep st e).dsNodes = st.dsNodes := by
  show (roInstrEnsure st e).dsNodes = _
  rw [roInstrEnsure_dsNodes]

/-- The Experiment nodes produced by the experiment pass in order. -/
def roExpNodesFrom (st : RoBuild) : List Experiment → List ExpNode
  | [] => []
  | e :: es => roExpNode st e :: roExpNodesFrom (roExpStep st e) es

theorem foldl_roExpStep_expNodes :
    ∀ (es : List Experiment) (st : RoBuild),
      (es.foldl roExpStep st).expNodes = st.expNodes ++ roExpNodesFrom st es := by
  intro es
  induction es with
  | nil => intro st; simp [roExpNodesFrom]
  | cons e es ih =>
    intro st
    rw [List.foldl_cons, ih, roExpStep_expNodes, roExpNodesFrom, List.append_assoc]
    rfl

theorem roExpNodesFrom_length :
    ∀ (es : List Experiment) (st : RoBuild), (roExpNodesFrom st es).length = es.length := by
  intro es
  induction es with
  | nil => intro st; rfl
  | cons e es ih => intro st; simp [roExpNodesFrom, ih]

theorem roExpNodesFrom_get :
    ∀ (es : List Experiment) (st : RoBuild) (i : Nat) (h : i < es.length),
      (roExpNodesFrom st es).get ⟨i, by rw [roExpNodesFrom_length]; exact h⟩ =
        roExpNode ((es.take i).foldl roExpStep st) (es.get ⟨i, h⟩) := by
  intro es
  induction es with
  | nil => intro st i h; simp at h
  | cons e es ih =>
    intro st i h
    cases i with
    | zero => rfl
    | succ i' => exact ih (roExpStep st e) i' (by simpa using h)

/-- The Dataset nodes produced by the output pass in order. -/
def roDsNodesFrom (st : RoBuild) : List Output → List DsNode
  | [] => []
  | o :: os => roDsNode st o :: roDsNodesFrom (roOutStep st o) os

theorem roOutStep_dsNodes (st : RoBuild) (o : Output) :
    (roOutStep st o).dsNodes = st.dsNodes ++ [roDsNode st o] := rfl

theorem foldl_roOutStep_dsNodes :
    ∀ (os : List Output) (st : RoBuild),
      (os.foldl roOutStep st).dsNodes = st.dsNodes ++ roDsNodesFrom st os := by
  intro os
  induction os with
  | nil => intro st; simp [roDsNodesFrom]
  | cons o os ih =>
    intro st
    rw [List.foldl_cons, ih, roOutStep_dsNodes, roDsNodesFrom, List.append_assoc]
    rfl

theorem roDsNodesFrom_length :
    ∀ (os : List Output) (st : RoBuild), (roDsNodesFrom st os).length = os.length := by
  intro os
  induction os with
  | nil => intro st; rfl
  | cons o os ih => intro st; simp [roDsNodesFrom, ih]

theorem roDsNodesFrom_get :
    ∀ (os : List Output) (st : RoBuild) (i : Nat) (h : i < os.length),
      (roDsNodesFrom st os).get ⟨i, by rw [roDsNodesFrom_length]; exact h⟩ =
        roDsNode ((os.take i).foldl roOutStep st) (os.get ⟨i, h⟩) := by
  intro os
  induction os with
  | nil => intro st i h; simp at h
  | cons o os ih =>
    intro st i h
    cases i with
    | zero => rfl
    | succ i' => exact ih (roOutStep st o) i' (by simpa using h)

theorem foldl_roOutStep_expNodes :
    ∀ (os : List Output) (st : RoBuild), (os.foldl roOutStep st).expNodes = st.expNodes := by
  intro os
  induction os with
  | nil => intro st; rfl
  | cons o os ih => intro st; rw [List.foldl_cons, ih]; rfl

theorem foldl_roOutStep_expGuids :
    ∀ (os : List Output) (st : RoBuild), (os.foldl roOutStep st).expGuids = st.expGuids := by
  intro os
  induction os with
  | nil => intro st; rfl
  | cons o os ih => intro st; rw [List.foldl_cons, ih]; rfl

theorem foldl_roOutStep_instrNodes :
    ∀ (os : List Output) (st : RoBuild), (os.foldl roOutStep st).instrNodes = st.instrNodes := by
  intro os
  induction os with
  | nil => intro st; rfl
  | cons o os ih => intro st; rw [List.foldl_cons, ih]; rfl

theorem foldl_roOutStep_instrMap :
    ∀ (os : List Output) (st : RoBuild), (os.foldl roOutStep st).instrMap = st.instrMap := by
  intro os
  induction os with
  | nil => intro st; rfl
  | cons o os ih => intro st; rw [List.foldl_cons, ih]; rfl

theorem foldl_roSampleStep_expNodes :
    ∀ (ss : List Sample) (st : RoBuild), (ss.foldl roSampleStep st).expNodes = st.expNodes := by
  intro ss
  induction ss with
  | nil => intro st; rfl
  | cons s ss ih => intro st; rw [List.foldl_cons, ih]; rfl

theorem foldl_roSampleStep_expGuids :
    ∀ (ss : List Sample) (st : RoBuild), (ss.foldl roSampleStep st).expGuids = st.expGuids := by
  intro ss
  induction ss with
  | nil => intro st; rfl
  | cons s ss ih => intro st; rw [List.foldl_cons, ih]; rfl

theorem foldl_roSampleStep_instrMap :
    ∀ (ss : List Sample) (st : RoBuild), (ss.foldl roSampleStep st).instrMap = st.instrMap := by
  intro ss
  induction ss with
  | nil => intro st; rfl
  | cons s ss ih => intro st; rw [List.foldl_cons, ih]; rfl

theorem foldl_roSampleStep_instrNodes :
    ∀ (ss : List Sample) (st : RoBuild), (ss.foldl roSampleStep st).instrNodes = st.instrNodes := by
  intro ss
  induction ss with
  | nil => intro st; rfl
  | cons s ss ih => intro st; rw [List.foldl_cons, ih]; rfl

/-- State after the sample pass. -/
def stSam (g : GenomicData) : RoBuild := g.samples.items.foldl roSampleStep RoBuild.init

/-- State after processing the first `i` experiments. -/
def stPre (g : GenomicData) (i : Nat) : RoBuild :=
  (g.experiments.items.take i).foldl roExpStep (stSam g)

/-- State after the whole experiment pass. -/
def stExp (g : GenomicData) : RoBuild := g.experiments.items.foldl roExpStep (stSam g)

theorem toRocrate_expNodes (g : GenomicData) :
    (toRocrate g).expNodes = roExpNodesFrom (stSam g) g.experiments.items := by
  show (g.outputs.items.foldl roOutStep (stExp g)).expNodes = _
  rw [foldl_roOutStep_expNodes, stExp, foldl_roExpStep_expNodes, stSam,
    foldl_roSampleStep_expNodes]
  rfl

theorem toRocrate_expNodes_length (g : GenomicData) :
    (toRocrate g).expNodes.length = g.experiments.items.length := by
  rw [toRocrate_expNodes, roExpNodesFrom_length]

theorem roExpNodesFrom_get? :
    ∀ (es : List Experiment) (st : RoBuild) (i : Nat) (e : Experiment),
      es.get? i = some e →
      (roExpNodesFrom st es).get? i =
        some (roExpNode ((es.take i).foldl roExpStep st) e) := by
  intro es
  induction es with
  | nil => intro st i e h; simp at h
  | cons x xs ih =>
    intro st i e h
    cases i with
    | zero =>
      simp only [List.get?] at h
      cases h
      rfl
    | succ i' =>
      simp only [List.get?] at h
      exact ih (roExpStep st x) i' e h

theorem toRocrate_expNode_get? (g : GenomicData) (i : Nat) (e : Experiment)
    (he : g.experiments.items.get? i = some e) :
    (toRocrate g).expNodes.get? i = some (roExpNode (stPre g i) e) := by
  rw [toRocrate_expNodes]
  exact roExpNodesFrom_get? g.experiments.items (stSam g) i e he

theorem toRocrate_dsNodes (g : GenomicData) :
    (toRocrate g).dsNodes = roDsNodesFrom (stExp g) g.outputs.items := by
  show (g.outputs.items.foldl roOutStep (stExp g)).dsNodes = _
  rw [foldl_roOutStep_dsNodes]
  have h1 : ∀ (es : List Experiment) (st : RoBuild),
      (es.foldl roExpStep st).dsNodes = st.dsNodes := by
    intro es
    induction es with
    | nil => intro st; rfl
    | cons e es ih => intro st; rw [List.foldl_cons, ih, roExpStep_dsNodes]
  have h2 : ∀ (ss : List Sample) (st : RoBuild),
      (ss.foldl roSampleStep st).dsNodes = st.dsNodes := by
    intro ss
    induction ss with
    | nil => intro st; rfl
    | cons s ss ih => intro st; rw [List.foldl_cons, ih]; rfl
  have hds : (stExp g).dsNodes = [] := by
    rw [stExp, h1, stSam, h2]
    rfl
  rw [hds]
  rfl

theorem toRocrate_dsNodes_length (g : GenomicData) :
    (toRocrate g).dsNodes.length = g.outputs.items.length := by
  rw [toRocrate_dsNodes, roDsNodesFrom_length]

theorem roDsNodesFrom_get? :
    ∀ (os : List Output) (st : RoBuild) (j : Nat) (o : Output),
      os.get? j = some o →
      (roDsNodesFrom st os).get? j =
        some (roDsNode ((os.take j).foldl roOutStep st) o) := by
  intro os
  induction os with
  | nil => intro st j o h; simp at h
  | cons x xs ih =>
    intro st j o h
    cases j with
    | zero =>
      simp only [List.get?] at h
      cases h
      rfl
    | succ j' =>
      simp only [List.get?] at h
      exact ih (roOutStep st x) j' o h

theorem toRocrate_dsNode_get? (g : GenomicData) (j : Nat) (o : Output)
    (ho : g.outputs.items.get? j = some o) :
    (toRocrate g).dsNodes.get? j =
      some (roDsNode ((g.outputs.items.take j).foldl roOutStep (stExp g)) o) := by
  rw [toRocrate_dsNodes]
  exact roDsNodesFrom_get? g.outputs.items (stExp g) j o ho

theorem sample_pass_idMap_none :
    ∀ (ss : List Sample) (st : RoBuild) (r : String),
      Amap.get? ((ss.foldl roSampleStep st).idMap) r = none ↔
        (Amap.get? st.idMap r = none ∧ r ∉ ss.map (·.accession)) := by
  intro ss
  induction ss with
  | nil => intro st r; simp
  | cons s ss ih =>
    intro st r
    rw [List.foldl_cons, ih]
    show Amap.get? (Amap.set st.idMap s.accession (mint st.ctr)) r = none ∧ _ ↔ _
    rw [Amap.get?_set]
    by_cases hr : s.accession = r
    · simp [hr]
    · simp only [hr, if_false, List.map_cons, List.mem_cons]
      constructor
      · rintro ⟨h1, h2⟩
        exact ⟨h1, by rintro (hc | hc); exact hr hc.symm; exact h2 hc⟩
      · rintro ⟨h1, h2⟩
        exact ⟨h1, fun hc => h2 (Or.inr hc)⟩

theorem exp_pass_idMap_none :
    ∀ (es : List Experiment) (st : RoBuild) (r : String),
      Amap.get? ((es.foldl roExpStep st).idMap) r = none ↔
        (Amap.get? st.idMap r = none ∧ r ∉ es.map (·.accession)) := by
  intro es
  induction es with
  | nil => intro st r; simp
  | cons e es ih =>
    intro st r
    rw [List.foldl_cons, ih, roExpStep_idMap, Amap.get?_set]
    by_cases hr : e.accession = r
    · simp [hr]
    · simp only [hr, if_false, List.map_cons, List.mem_cons]
      constructor
      · rintro ⟨h1, h2⟩
        exact ⟨h1, by rintro (hc | hc); exact hr hc.symm; exact h2 hc⟩
      · rintro ⟨h1, h2⟩
        exact ⟨h1, fun hc => h2 (Or.inr hc)⟩

theorem exp_pass_expGuids_none :
    ∀ (es : List Experiment) (st : RoBuild) (r : String),
      Amap.get? ((es.foldl roExpStep st).expGuids) r = none ↔
        (Amap.get? st.expGuids r = none ∧ r ∉ es.map (·.accession)) := by
  intro es
  induction es with
  | nil => intro st r; simp
  | cons e es ih =>
    intro st r
    rw [List.foldl_cons, ih, roExpStep_expGuids, Amap.get?_set]
    by_cases hr : e.accession = r
    · simp [hr]
    · simp only [hr, if_false, List.map_cons, List.mem_cons]
      constructor
      · rintro ⟨h1, h2⟩
        exact ⟨h1, by rintro (hc | hc); exact hr hc.symm; exact h2 hc⟩
      · rintro ⟨h1, h2⟩
        exact ⟨h1, fun hc => h2 (Or.inr hc)⟩

theorem roExpNode_usedSample_empty (st : RoBuild) (e : Experiment)
    (h : Amap.get? st.idMap e.sample_ref = none) : (roExpNode st e).usedSample = [] := by
  show (match Amap.get? (roInstrEnsure st e).idMap e.sample_ref with
    | some gid => if pyTruthy gid then [gid] else []
    | none => []) = []
  rw [roInstrEnsure_idMap, h]

theorem roDsNode_generatedBy (st : RoBuild) (o : Output) :
    (roDsNode st o).generatedBy = [Amap.getD st.expGuids o.experiment_ref ""] := rfl

/-! ## Claim C3: unresolved cross-references -/

/-- C3 (amended): an Experiment whose `sample_ref` matches no Sample
accession yields no subsample row in `to_pep`; in `to_rocrate` its node has
an empty `usedSample` list provided the `sample_ref` also matches no
earlier Experiment's accession (the shared `id_mapping` holds experiment
guids too). An Output whose `experiment_ref` matches no Experiment
accession yields no subsample row, and its Dataset node is still emitted,
with the empty-string `generatedBy` reference. Nothing raises. -/
theorem claim3_unresolved_refs (g : GenomicData) :
    (∀ e ∈ g.experiments.items, e.sample_ref ∉ g.samples.items.map (·.accession) →
      (∀ t ∈ subsampleTriples g, t.2.1 ≠ e) ∧
      ∀ i, g.experiments.items.get? i = some e →
        e.sample_ref ∉ ((g.experiments.items.take i).map (·.accession)) →
        ∃ nd, (toRocrate g).expNodes.get? i = some nd ∧ nd.usedSample = []) ∧
    (∀ o ∈ g.outputs.items, o.experiment_ref ∉ g.experiments.items.map (·.accession) →
      (∀ t ∈ subsampleTriples g, t.2.2 ≠ o) ∧
      ∀ j, g.outputs.items.get? j = some o →
        ∃ nd, (toRocrate g).dsNodes.get? j = some nd ∧ nd.generatedBy = [""]) := by
  constructor
  · intro e _ href
    constructor
    · intro t ht hte
      obtain ⟨hts, -, htref, -, -⟩ := subsampleTriples_spec ht
      rw [hte] at htref
      exact href (htref ▸ List.mem_map_of_mem _ hts)
    · intro i hie htake
      refine ⟨roExpNode (stPre g i) e, toRocrate_expNode_get? g i e hie, ?_⟩
      apply roExpNode_usedSample_empty
      rw [stPre, exp_pass_idMap_none]
      refine ⟨?_, htake⟩
      rw [stSam, sample_pass_idMap_none]
      exact ⟨rfl, href⟩
  · intro o _ href
    constructor
    · intro t ht hto
      obtain ⟨-, hte, -, -, htoref⟩ := subsampleTriples_spec ht
      rw [hto] at htoref
      exact href (htoref ▸ List.mem_map_of_mem _ hte)
    · intro j hjo
      refine ⟨roDsNode ((g.outputs.items.take j).foldl roOutStep (stExp g)) o,
        toRocrate_dsNode_get? g j o hjo, ?_⟩
      rw [roDsNode_generatedBy, foldl_roOutStep_expGuids]
      have hnone : Amap.get? (stExp g).expGuids o.experiment_ref = none := by
        rw [stExp, exp_pass_expGuids_none]
        refine ⟨?_, href⟩
        rw [stSam, foldl_roSampleStep_expGuids]
        rfl
      rw [Amap.getD, hnone]
      rfl

def gC3c : GenomicData :=
  { project := { id := "P3", accession := "P3" }
    samples := ⟨[]⟩
    experiments := ⟨[
      { accession := "A", title := "", study_ref := "", sample_ref := "zz",
        library_name := "", library_strategy := "", library_source := "",
        library_selection := "", library_layout := "", nominal_length := "",
        platform_type := "", instrument_model := "" },
      { accession := "B", title := "", study_ref := "", sample_ref := "A",
        library_name := "", library_strategy := "", library_source := "",
        library_selection := "", library_layout := "", nominal_length := "",
        platform_type := "", instrument_model := "" }]⟩
    outputs := ⟨[]⟩ }

/-- C3 counterexample: with no samples at all, the second experiment's
`sample_ref` (`"A"`) matches no `Sample.accession`, yet its node's
`usedSample` is not empty — it picks up the guid of the first experiment's
node out of the shared `id_mapping`, a graph edge to a nonexistent
sample. -/
theorem claim3_counterexample :
    gC3c.samples.items = [] ∧
    gC3c.experiments.items.map (·.sample_ref) = ["zz", "A"] ∧
    (toRocrate gC3c).sampleGuids = [] ∧
    (toRocrate gC3c).expNodes.map (·.guid) = ["guid-1", "guid-2"] ∧
    (toRocrate gC3c).expNodes.map (·.usedSample) = [[], ["guid-1"]] := by
  refine ⟨rfl, by decide, by decide, by decide, by decide⟩

def eC3w : Experiment :=
  { accession := "E3", title := "", study_ref := "", sample_ref := "nope",
    library_name := "", library_strategy := "", library_source := "",
    library_selection := "", library_layout := "", nominal_length := "",
    platform_type := "", instrument_model := "" }

def oC3w : Output := { accession := "R3", experiment_ref := "nah" }

def gC3w : GenomicData :=
  { project := { id := "P3w", accession := "P3w" }
    samples := ⟨[]⟩, experiments := ⟨[eC3w]⟩, outputs := ⟨[oC3w]⟩ }

theorem claim3_unresolved_refs_witness :
    subsampleTriples gC3w = [] ∧
    (∃ nd, (toRocrate gC3w).expNodes.get? 0 = some nd ∧ nd.usedSample = []) ∧
    (∃ nd, (toRocrate gC3w).dsNodes.get? 0 = some nd ∧ nd.generatedBy = [""]) :=
  ⟨by decide,
   ((claim3_unresolved_refs gC3w).1 eC3w (by decide) (by decide)).2 0 (by decide) (by decide),
   ((claim3_unresolved_refs gC3w).2 oC3w (by decide) (by decide)).2 0 (by decide)⟩

/-! ## Instrument dedup machinery (claims C7 and C9) -/

theorem roExpStep_instrMap (st : RoBuild) (e : Experiment) :
    (roExpStep st e).instrMap = (roInstrEnsure st e).instrMap := rfl

theorem roExpStep_instrNodes (st : RoBuild) (e : Experiment) :
    (roExpStep st e).instrNodes = (roInstrEnsure st e).instrNodes := rfl

/-- Invariants of the instrument dedup state: map values are freshly
minted guids, the map is injective on values, map entries and created
Instrument nodes correspond one to one, and node guids are pairwise
distinct. -/
def InstrAll (st : RoBuild) : Prop :=
  (∀ k v, Amap.get? st.instrMap k = some v → ∃ n, n < st.ctr ∧ v = mint n) ∧
  (∀ k1 k2 v, Amap.get? st.instrMap k1 = some v → Amap.get? st.instrMap k2 = some v →
    k1 = k2) ∧
  (∀ nd ∈ st.instrNodes, Amap.get? st.instrMap (nd.manufacturer ++ "_" ++ nd.model) =
    some nd.guid) ∧
  (∀ k v, Amap.get? st.instrMap k = some v →
    ∃ nd ∈ st.instrNodes, nd.manufacturer ++ "_" ++ nd.model = k ∧ nd.guid = v) ∧
  (st.instrNodes.map (·.guid)).Nodup ∧
  (∀ nd ∈ st.instrNodes, ∃ n, n < st.ctr ∧ nd.guid = mint n)

theorem instrAll_init : InstrAll RoBuild.init := by
  refine ⟨?_, ?_, ?_, ?_, ?_, ?_⟩ <;> simp [RoBuild.init]

theorem instrAll_ctr_mono {st : RoBuild} (h : InstrAll st) (c : Nat) (hc : st.ctr ≤ c)
    (st' : RoBuild) (hmap : st'.instrMap = st.instrMap)
    (hnodes : st'.instrNodes = st.instrNodes) (hctr : st'.ctr = c) : InstrAll st' := by
  obtain ⟨h1, h2, h3, h4, h5, h6⟩ := h
  refine ⟨?_, ?_, ?_, ?_, ?_, ?_⟩
  · intro k v hv
    rw [hmap] at hv
    obtain ⟨n, hn, rfl⟩ := h1 k v hv
    exact ⟨n, by omega, rfl⟩
  · intro k1 k2 v hv1 hv2
    rw [hmap] at hv1 hv2
    exact h2 k1 k2 v hv1 hv2
  · intro nd hnd
    rw [hnodes] at hnd
    rw [hmap]
    exact h3 nd hnd
  · intro k v hv
    rw [hmap] at hv
    rw [hnodes]
    exact h4 k v hv
  · rw [hnodes]
    exact h5
  · intro nd hnd
    rw [hnodes] at hnd
    obtain ⟨n, hn, hg⟩ := h6 nd hnd
    exact ⟨n, by omega, hg⟩

theorem instrAll_roSampleStep {st : RoBuild} (h : InstrAll st) (s : Sample) :
    InstrAll (roSampleStep st s) :=
  instrAll_ctr_mono h (st.ctr + 1) (by omega) _ rfl rfl rfl

theorem instrAll_roOutStep {st : RoBuild} (h : InstrAll st) (o : Output) :
    InstrAll (roOutStep st o) :=
  instrAll_ctr_mono h (st.ctr + 1) (by omega) _ rfl rfl rfl

theorem instrAll_roInstrEnsure {st : RoBuild} (h : InstrAll st) (e : Experiment) :
    InstrAll (roInstrEnsure st e) := by
  obtain ⟨h1, h2, h3, h4, h5, h6⟩ := h
  unfold roInstrEnsure
  cases hm : Amap.get? st.instrMap (instrKey e) with
  | some v => exact ⟨h1, h2, h3, h4, h5, h6⟩
  | none =>
    refine ⟨?_, ?_, ?_, ?_, ?_, ?_⟩
    · intro k v hv
      rw [Amap.get?_set] at hv
      by_cases hk : instrKey e = k
      · rw [if_pos hk] at hv
        exact ⟨st.ctr, Nat.lt_succ_self _, (Option.some.inj hv).symm⟩
      · rw [if_neg hk] at hv
        obtain ⟨n, hn, rfl⟩ := h1 k v hv
        exact ⟨n, Nat.lt_succ_of_lt hn, rfl⟩
    · intro k1 k2 v hv1 hv2
      rw [Amap.get?_set] at hv1 hv2
      by_cases hk1 : instrKey e = k1 <;> by_cases hk2 : instrKey e = k2
      · rw [← hk1, ← hk2]
      · rw [if_pos hk1] at hv1
        rw [if_neg hk2] at hv2
        obtain ⟨n, hn, hnv⟩ := h1 k2 v hv2
        have : mint st.ctr = mint n := by
          rw [← hnv]
          exact Option.some.inj hv1
        have := mint_inj this
        omega
      · rw [if_neg hk1] at hv1
        rw [if_pos hk2] at hv2
        obtain ⟨n, hn, hnv⟩ := h1 k1 v hv1
        have : mint st.ctr = mint n := by
          rw [← hnv]
          exact Option.some.inj hv2
        have := mint_inj this
        omega
      · rw [if_neg hk1] at hv1
        rw [if_neg hk2] at hv2
        exact h2 k1 k2 v hv1 hv2
    · intro nd hnd
      rcases List.mem_append.1 hnd with hnd | hnd
      · have hold := h3 nd hnd
        have hne : instrKey e ≠ nd.manufacturer ++ "_" ++ nd.model := by
          intro hc
          rw [← hc] at hold
          rw [hold] at hm
          cases hm
        rw [Amap.get?_set, if_neg hne]
        exact hold
      · rcases List.mem_singleton.1 hnd with rfl
        show Amap.get? (Amap.set st.instrMap (instrKey e) (mint st.ctr))
          (e.platform_type ++ "_" ++ e.instrument_model) = some (mint st.ctr)
        exact Amap.get?_set_self _ _ _
    · intro k v hv
      rw [Amap.get?_set] at hv
      by_cases hk : instrKey e = k
      · rw [if_pos hk] at hv
        refine ⟨⟨mint st.ctr, e.instrument_model, e.platform_type, e.instrument_model⟩,
          List.mem_append.2 (Or.inr (List.mem_singleton.2 rfl)), hk, Option.some.inj hv⟩
      · rw [if_neg hk] at hv
        obtain ⟨nd, hnd, hkey, hguid⟩ := h4 k v hv
        exact ⟨nd, List.mem_append.2 (Or.inl hnd), hkey, hguid⟩
    · rw [List.map_append]
      rw [List.nodup_append]
      refine ⟨h5, List.nodup_singleton _, ?_⟩
      intro a ha hb
      simp only [List.map_cons, List.map_nil, List.mem_singleton] at hb
      obtain ⟨nd, hnd, rfl⟩ := List.mem_map.1 ha
      obtain ⟨n, hn, hg⟩ := h6 nd hnd
      rw [hg] at hb
      have := mint_inj hb
      omega
    · intro nd hnd
      rcases List.mem_append.1 hnd with hnd | hnd
      · obtain ⟨n, hn, hg⟩ := h6 nd hnd
        exact ⟨n, Nat.lt_succ_of_lt hn, hg⟩
      · rcases List.mem_singleton.1 hnd with rfl
        exact ⟨st.ctr, Nat.lt_succ_self _, rfl⟩

theorem instrAll_roExpStep {st : RoBuild} (h : InstrAll st) (e : Experiment) :
    InstrAll (roExpStep st e) := by
  have h1 := instrAll_roInstrEnsure h e
  exact instrAll_ctr_mono h1 ((roInstrEnsure st e).ctr + 1) (by omega) _ rfl rfl rfl

theorem instrAll_fold_samples :
    ∀ (ss : List Sample) {st : RoBuild}, InstrAll st → InstrAll (ss.foldl roSampleStep st) := by
  intro ss
  induction ss with
  | nil => intro st h; exact h
  | cons s ss ih => intro st h; exact ih (instrAll_roSampleStep h s)

theorem instrAll_fold_exps :
    ∀ (es : List Experiment) {st : RoBuild}, InstrAll st → InstrAll (es.foldl roExpStep st) := by
  intro es
  induction es with
  | nil => intro st h; exact h
  | cons e es ih => intro st h; exact ih (instrAll_roExpStep h e)

theorem instrMap_mono_expStep {st : RoBuild} (e : Experiment) {k v : String}
    (h : Amap.get? st.instrMap k = some v) :
    Amap.get? (roExpStep st e).instrMap k = some v := by
  rw [roExpStep_instrMap]
  unfold roInstrEnsure
  cases hm : Amap.get? st.instrMap (instrKey e) with
  | some w => exact h
  | none =>
    show Amap.get? (Amap.set st.instrMap (instrKey e) (mint st.ctr)) k = some v
    have hne : instrKey e ≠ k := by
      intro hc
      rw [hc, h] at hm
      cases hm
    rw [Amap.get?_set, if_neg hne]
    exact h

theorem instrMap_mono_fold :
    ∀ (es : List Experiment) (st : RoBuild) {k v : String},
      Amap.get? st.instrMap k = some v →
      Amap.get? ((es.foldl roExpStep st).instrMap) k = some v := by
  intro es
  induction es with
  | nil => intro st k v h; exact h
  | cons e es ih => intro st k v h; exact ih _ (instrMap_mono_expStep e h)

theorem roInstrEnsure_of_some {st : RoBuild} {e : Experiment} {v : String}
    (hm : Amap.get? st.instrMap (instrKey e) = some v) : roInstrEnsure st e = st := by
  unfold roInstrEnsure
  rw [hm]

theorem roInstrEnsure_of_none {st : RoBuild} {e : Experiment}
    (hm : Amap.get? st.instrMap (instrKey e) = none) :
    roInstrEnsure st e =
      { st with
        ctr := st.ctr + 1
        instrMap := Amap.set st.instrMap (instrKey e) (mint st.ctr)
        instrNodes := st.instrNodes ++
          [⟨mint st.ctr, e.instrument_model, e.platform_type, e.instrument_model⟩] } := by
  unfold roInstrEnsure
  rw [hm]

theorem roExpNode_usedInstrument_eq (st : RoBuild) (e : Experiment) :
    (roExpNode st e).usedInstrument =
      (if pyTruthy (Amap.getD (roInstrEnsure st e).instrMap (instrKey e) "") then
        [Amap.getD (roInstrEnsure st e).instrMap (instrKey e) ""]
      else []) := rfl

theorem roExpNode_usedInstrument_spec (st : RoBuild) (e : Experiment)
    (h1 : ∀ k v, Amap.get? st.instrMap k = some v → ∃ n, n < st.ctr ∧ v = mint n) :
    ∃ v, Amap.get? ((roExpStep st e).instrMap) (instrKey e) = some v ∧
      (roExpNode st e).usedInstrument = [v] := by
  rw [roExpStep_instrMap, roExpNode_usedInstrument_eq]
  cases hm : Amap.get? st.instrMap (instrKey e) with
  | some v =>
    obtain ⟨n, hn, rfl⟩ := h1 _ v hm
    refine ⟨mint n, ?_, ?_⟩
    · rw [roInstrEnsure_of_some hm]
      exact hm
    · rw [roInstrEnsure_of_some hm]
      rw [Amap.getD, hm]
      simp [pyTruthy, mint_ne_empty n]
  | none =>
    refine ⟨mint st.ctr, ?_, ?_⟩
    · rw [roInstrEnsure_of_none hm]
      exact Amap.get?_set_self _ _ _
    · rw [roInstrEnsure_of_none hm]
      show (if pyTruthy (Amap.getD (Amap.set st.instrMap (instrKey e) (mint st.ctr))
          (instrKey e) "") then _ else _) = _
      rw [Amap.getD, Amap.get?_set_self]
      simp [pyTruthy, mint_ne_empty st.ctr]

theorem expNode_usedInstrument_final (g : GenomicData) (i : Nat) (e : Experiment)
    (he : g.experiments.items.get? i = some e) :
    ∃ v, Amap.get? ((stExp g).instrMap) (instrKey e) = some v ∧
      (roExpNode (stPre g i) e).usedInstrument = [v] := by
  have hinv : InstrAll (stPre g i) :=
    instrAll_fold_exps _ (instrAll_fold_samples _ instrAll_init)
  obtain ⟨v, hv, hu⟩ := roExpNode_usedInstrument_spec (stPre g i) e hinv.1
  refine ⟨v, ?_, hu⟩
  obtain ⟨hlen, hget⟩ := List.get?_eq_some.1 he
  have hd : g.experiments.items.drop i = e :: g.experiments.items.drop (i + 1) := by
    rw [List.drop_eq_getElem_cons hlen]
    congr 1
  have hdecomp : stExp g =
      (g.experiments.items.drop (i + 1)).foldl roExpStep (roExpStep (stPre g i) e) := by
    rw [stExp, stPre]
    conv_lhs => rw [← List.take_append_drop i g.experiments.items]
    rw [List.foldl_append, hd, List.foldl_cons]
  rw [hdecomp]
  exact instrMap_mono_fold _ _ hv

/-- C9: in `to_rocrate`, two Experiments' nodes carry the same
`usedInstrument` reference exactly when their concatenations
`platform_type ++ "_" ++ instrument_model` agree — the dedup key is the
concatenated string, not the pair. -/
theorem claim9_instrument_key_concat (g : GenomicData) (i j : Nat) (ei ej : Experiment)
    (hei : g.experiments.items.get? i = some ei)
    (hej : g.experiments.items.get? j = some ej)
    (ndi ndj : ExpNode)
    (hni : (toRocrate g).expNodes.get? i = some ndi)
    (hnj : (toRocrate g).expNodes.get? j = some ndj) :
    ndi.usedInstrument = ndj.usedInstrument ↔
      ei.platform_type ++ "_" ++ ei.instrument_model =
        ej.platform_type ++ "_" ++ ej.instrument_model := by
  have hndi : ndi = roExpNode (stPre g i) ei := by
    have h := toRocrate_expNode_get? g i ei hei
    rw [hni] at h
    exact Option.some.inj h
  have hndj : ndj = roExpNode (stPre g j) ej := by
    have h := toRocrate_expNode_get? g j ej hej
    rw [hnj] at h
    exact Option.some.inj h
  obtain ⟨vi, hvi, hui⟩ := expNode_usedInstrument_final g i ei hei
  obtain ⟨vj, hvj, huj⟩ := expNode_usedInstrument_final g j ej hej
  have hinv : InstrAll (stExp g) :=
    instrAll_fold_exps _ (instrAll_fold_samples _ instrAll_init)
  rw [hndi, hndj, hui, huj]
  show [vi] = [vj] ↔ instrKey ei = instrKey ej
  constructor
  · intro h
    have hv : vi = vj := by simpa using h
    exact hinv.2.1 _ _ _ hvi (hv ▸ hvj)
  · intro h
    rw [h] at hvi
    rw [Option.some.inj (hvi.symm.trans hvj)]

def eC9a : Experiment :=
  { accession := "X9a", title := "T9a", study_ref := "", sample_ref := "",
    library_name := "", library_strategy := "", library_source := "",
    library_selection := "", library_layout := "", nominal_length := "",
    platform_type := "A", instrument_model := "B_C" }

def eC9b : Experiment :=
  { accession := "X9b", title := "T9b", study_ref := "", sample_ref := "",
    library_name := "", library_strategy := "", library_source := "",
    library_selection := "", library_layout := "", nominal_length := "",
    platform_type := "A_B", instrument_model := "C" }

def gC9 : GenomicData :=
  { project := { id := "P9", accession := "P9" }
    samples := ⟨[]⟩, experiments := ⟨[eC9a, eC9b]⟩, outputs := ⟨[]⟩ }

def ndC9a : ExpNode :=
  { guid := "guid-1", accession := "X9a", name := "T9a",
    usedInstrument := ["guid-0"], usedSample := [] }

def ndC9b : ExpNode :=
  { guid := "guid-2", accession := "X9b", name := "T9b",
    usedInstrument := ["guid-0"], usedSample := [] }

theorem claim9_instrument_key_concat_witness :
    (eC9a.platform_type, eC9a.instrument_model) ≠ (eC9b.platform_type, eC9b.instrument_model) ∧
    (toRocrate gC9).expNodes.get? 0 = some ndC9a ∧
    (toRocrate gC9).expNodes.get? 1 = some ndC9b ∧
    (toRocrate gC9).instrNodes.length = 1 ∧
    ndC9a.usedInstrument = ndC9b.usedInstrument :=
  ⟨by decide, by decide, by decide, by decide,
   (claim9_instrument_key_concat gC9 0 1 eC9a eC9b (by decide) (by decide) ndC9a ndC9b
      (by decide) (by decide)).mpr (by decide)⟩

theorem toRocrate_instrNodes (g : GenomicData) :
    (toRocrate g).instrNodes = (stExp g).instrNodes := by
  show (g.outputs.items.foldl roOutStep (stExp g)).instrNodes = _
  rw [foldl_roOutStep_instrNodes]

theorem roInstrEnsure_nodes_origin {st : RoBuild} {e : Experiment} :
    ∀ nd ∈ (roInstrEnsure st e).instrNodes,
      nd ∈ st.instrNodes ∨
        (nd.manufacturer = e.platform_type ∧ nd.model = e.instrument_model ∧
          nd.name = e.instrument_model) := by
  intro nd hnd
  cases hm : Amap.get? st.instrMap (instrKey e) with
  | some v =>
    rw [roInstrEnsure_of_some hm] at hnd
    exact Or.inl hnd
  | none =>
    rw [roInstrEnsure_of_none hm] at hnd
    rcases List.mem_append.1 hnd with hnd | hnd
    · exact Or.inl hnd
    · rcases List.mem_singleton.1 hnd with rfl
      exact Or.inr ⟨rfl, rfl, rfl⟩

theorem instrNodes_origin :
    ∀ (es : List Experiment) (st : RoBuild), ∀ nd ∈ (es.foldl roExpStep st).instrNodes,
      nd ∈ st.instrNodes ∨
        ∃ e ∈ es, nd.manufacturer = e.platform_type ∧ nd.model = e.instrument_model ∧
          nd.name = e.instrument_model := by
  intro es
  induction es with
  | nil => intro st nd hnd; exact Or.inl hnd
  | cons e es ih =>
    intro st nd hnd
    rw [List.foldl_cons] at hnd
    rcases ih _ nd hnd with hmem | ⟨e', he', hfields⟩
    · rw [roExpStep_instrNodes] at hmem
      rcases roInstrEnsure_nodes_origin nd hmem with hmem | hfields
      · exact Or.inl hmem
      · exact Or.inr ⟨e, List.mem_cons_self _ _, hfields⟩
    · exact Or.inr ⟨e', List.mem_cons_of_mem _ he', hfields⟩

theorem filter_eq_singleton {α : Type} [DecidableEq α] :
    ∀ {l : List α} {p : α → Bool} {a : α}, l.Nodup → a ∈ l → p a = true →
      (∀ b ∈ l, p b = true → b = a) → l.filter p = [a] := by
  intro l
  induction l with
  | nil => intro p a _ ha; cases ha
  | cons x xs ih =>
    intro p a hnodup ha hpa huni
    rcases List.mem_cons.1 ha with rfl | hmem
    · rw [List.filter_cons, if_pos hpa]
      have hnil : xs.filter p = [] := by
        rw [List.filter_eq_nil_iff]
        intro b hb hpb
        have := huni b (List.mem_cons_of_mem _ hb) hpb
        rw [this] at hb
        exact (List.nodup_cons.1 hnodup).1 hb
      rw [hnil]
    · have hx : p x = false := by
        cases hpx : p x
        · rfl
        · have := huni x (List.mem_cons_self _ _) hpx
          rw [this] at hnodup
          exact absurd hmem (List.nodup_cons.1 hnodup).1
      rw [List.filter_cons, if_neg (by rw [hx]; exact Bool.false_ne_true)]
      exact ih (List.nodup_cons.1 hnodup).2 hmem hpa
        (fun b hb hpb => huni b (List.mem_cons_of_mem _ hb) hpb)

/-- C7 (amended): two Experiments with identical
`(platform_type, instrument_model)` always share the same `usedInstrument`
guid; and when no other experiment's concatenation
`platform_type ++ "_" ++ instrument_model` collides with a different pair,
exactly one Instrument node with that manufacturer/model exists, and its
guid is the one both experiments reference. -/
theorem claim7_instrument_dedup (g : GenomicData) (i j : Nat) (ei ej : Experiment)
    (hei : g.experiments.items.get? i = some ei)
    (hej : g.experiments.items.get? j = some ej)
    (hp : ei.platform_type = ej.platform_type)
    (hm : ei.instrument_model = ej.instrument_model)
    (hnocoll : ∀ e ∈ g.experiments.items,
      e.platform_type ++ "_" ++ e.instrument_model =
        ei.platform_type ++ "_" ++ ei.instrument_model →
      e.platform_type = ei.platform_type ∧ e.instrument_model = ei.instrument_model)
    (ndi ndj : ExpNode)
    (hni : (toRocrate g).expNodes.get? i = some ndi)
    (hnj : (toRocrate g).expNodes.get? j = some ndj) :
    ndi.usedInstrument = ndj.usedInstrument ∧
    ∃ v, ndi.usedInstrument = [v] ∧
      (toRocrate g).instrNodes.filter
        (fun nd => nd.manufacturer = ei.platform_type ∧ nd.model = ei.instrument_model) =
        [⟨v, ei.instrument_model, ei.platform_type, ei.instrument_model⟩] := by
  have hkey : instrKey ei = instrKey ej := by
    unfold instrKey
    rw [hp, hm]
  have hndi : ndi = roExpNode (stPre g i) ei := by
    have h := toRocrate_expNode_get? g i ei hei
    rw [hni] at h
    exact Option.some.inj h
  have hndj : ndj = roExpNode (stPre g j) ej := by
    have h := toRocrate_expNode_get? g j ej hej
    rw [hnj] at h
    exact Option.some.inj h
  obtain ⟨vi, hvi, hui⟩ := expNode_usedInstrument_final g i ei hei
  obtain ⟨vj, hvj, huj⟩ := expNode_usedInstrument_final g j ej hej
  have hinv : InstrAll (stExp g) :=
    instrAll_fold_exps _ (instrAll_fold_samples _ instrAll_init)
  have hvij : vi = vj := by
    rw [hkey] at hvi
    exact Option.some.inj (hvi.symm.trans hvj)
  have hused : ndi.usedInstrument = ndj.usedInstrument := by
    rw [hndi, hndj, hui, huj, hvij]
  refine ⟨hused, vi, by rw [hndi, hui], ?_⟩
  obtain ⟨nd, hndmem, hndkey, hndguid⟩ := hinv.2.2.2.1 _ vi hvi
  have hnodesInit : (stSam g).instrNodes = [] := by
    rw [stSam, foldl_roSampleStep_instrNodes]
    rfl
  have horigin := instrNodes_origin g.experiments.items (stSam g) nd (by
    show nd ∈ (stExp g).instrNodes
    exact hndmem)
  rcases horigin with hmem0 | ⟨e', he'mem, hf1, hf2, hf3⟩
  · rw [hnodesInit] at hmem0
    cases hmem0
  · have hkey' : e'.platform_type ++ "_" ++ e'.instrument_model =
        ei.platform_type ++ "_" ++ ei.instrument_model := by
      rw [← hf1, ← hf2]
      exact hndkey
    obtain ⟨hep, hem⟩ := hnocoll e' he'mem hkey'
    have hndeq : nd = ⟨vi, ei.instrument_model, ei.platform_type, ei.instrument_model⟩ := by
      obtain ⟨g0, n0, ma0, mo0⟩ := nd
      simp only at hf1 hf2 hf3 hndguid
      rw [hndguid, hf1, hf2, hf3, hep, hem]
    have hnodup : (stExp g).instrNodes.Nodup := hinv.2.2.2.2.1.of_map _
    rw [toRocrate_instrNodes]
    refine filter_eq_singleton hnodup (hndeq ▸ hndmem) ?_ ?_
    · simp
    · intro b hb hpb
      simp only [decide_eq_true_eq] at hpb
      obtain ⟨hbp, hbm⟩ := hpb
      have hbkey : b.manufacturer ++ "_" ++ b.model = instrKey ei := by
        rw [hbp, hbm]
        rfl
      have hbmap := hinv.2.2.1 b hb
      rw [hbkey] at hbmap
      have hbv : b.guid = vi := Option.some.inj (hbmap.symm.trans hvi)
      have hbeq : b = nd := by
        have hinj := List.inj_on_of_nodup_map hinv.2.2.2.2.1
        exact hinj hb hndmem (by rw [hbv, hndguid])
      rw [hbeq, hndeq]

def gC7c : GenomicData :=
  { project := { id := "P7", accession := "P7" }
    samples := ⟨[]⟩
    experiments := ⟨[
      { accession := "X7c1", title := "", study_ref := "", sample_ref := "",
        library_name := "", library_strategy := "", library_source := "",
        library_selection := "", library_layout := "", nominal_length := "",
        platform_type := "A", instrument_model := "B_C" },
      { accession := "X7c2", title := "", study_ref := "", sample_ref := "",
        library_name := "", library_strategy := "", library_source := "",
        library_selection := "", library_layout := "", nominal_length := "",
        platform_type := "A_B", instrument_model := "C" },
      { accession := "X7c3", title := "", study_ref := "", sample_ref := "",
        library_name := "", library_strategy := "", library_source := "",
        library_selection := "", library_layout := "", nominal_length := "",
        platform_type := "A_B", instrument_model := "C" }]⟩
    outputs := ⟨[]⟩ }

/-- C7 counterexample: the second and third experiments share the pair
`("A_B", "C")`, yet no Instrument node for that pair is created at all —
the first experiment's pair `("A", "B_C")` produced the same concatenated
key, so the dedup map collapses them and the "first such Experiment"
creates nothing. -/
theorem claim7_counterexample :
    gC7c.experiments.items.map (fun e => (e.platform_type, e.instrument_model)) =
      [("A", "B_C"), ("A_B", "C"), ("A_B", "C")] ∧
    (toRocrate gC7c).instrNodes.map (fun nd => (nd.manufacturer, nd.model)) =
      [("A", "B_C")] ∧
    (toRocrate gC7c).instrNodes.filter
      (fun nd => nd.manufacturer = "A_B" ∧ nd.model = "C") = [] := by
  refine ⟨by decide, by decide, by decide⟩

def eC7a : Experiment :=
  { accession := "X7a", title := "T7a", study_ref := "", sample_ref := "",
    library_name := "", library_strategy := "", library_source := "",
    library_selection := "", library_layout := "", nominal_length := "",
    platform_type := "ILLUMINA", instrument_model := "HiSeq" }

def eC7b : Experiment :=
  { accession := "X7b", title := "T7b", study_ref := "", sample_ref := "",
    library_name := "", library_strategy := "", library_source := "",
    library_selection := "", library_layout := "", nominal_length := "",
    platform_type := "ILLUMINA", instrument_model := "HiSeq" }

def gC7w : GenomicData :=
  { project := { id := "P7w", accession := "P7w" }
    samples := ⟨[]⟩, experiments := ⟨[eC7a, eC7b]⟩, outputs := ⟨[]⟩ }

def ndC7a : ExpNode :=
  { guid := "guid-1", accession := "X7a", name := "T7a",
    usedInstrument := ["guid-0"], usedSample := [] }

def ndC7b : ExpNode :=
  { guid := "guid-2", accession := "X7b", name := "T7b",
    usedInstrument := ["guid-0"], usedSample := [] }

theorem claim7_instrument_dedup_witness :
    (toRocrate gC7w).expNodes.get? 0 = some ndC7a ∧
    (toRocrate gC7w).expNodes.get? 1 = some ndC7b ∧
    ndC7a.usedInstrument = ndC7b.usedInstrument ∧
    ∃ v, ndC7a.usedInstrument = [v] ∧
      (toRocrate gC7w).instrNodes.filter
        (fun nd => nd.manufacturer = eC7a.platform_type ∧ nd.model = eC7a.instrument_model) =
        [⟨v, eC7a.instrument_model, eC7a.platform_type, eC7a.instrument_model⟩] :=
  ⟨by decide, by decide,
   (claim7_instrument_dedup gC7w 0 1 eC7a eC7b (by decide) (by decide) rfl rfl (by decide)
      ndC7a ndC7b (by decide) (by decide)).1,
   (claim7_instrument_dedup gC7w 0 1 eC7a eC7b (by decide) (by decide) rfl rfl (by decide)
      ndC7a ndC7b (by decide) (by decide)).2⟩

/-! ## Claim C4: `from_rocrate` fan-out -/

/-- A minimal RO-Crate graph: the metadata descriptor, the root dataset,
one Sample, and one Computation whose `usedDataset` resolves to that
sample. -/
def graphC4 : List REntity :=
  [ { id := "ro-crate-metadata.json", type := .str "CreativeWork" },
    { id := "./", type := .list ["Dataset", "https://w3id.org/EVI#ROCrate"],
      name := some "Root", identifier := some "PRJX" },
    { id := "ark:59852/sample-1", type := .str "https://w3id.org/EVI#Sample",
      accession := some "SAMD00001" },
    { id := "ark:59852/computation-1", type := .str "https://w3id.org/EVI#Computation",
      accession := some "SRX000001", name := some "Exp 1",
      usedDataset := some ["ark:59852/sample-1"] } ]

/-- C4: on a graph whose single Computation has one resolvable sample
reference, `from_rocrate` does not return the claimed 1-experiment
`GenomicData` — constructing the `Experiment` raises a pydantic
`ValidationError`, because `experiment.py` declares `study_ref` required
and the `Experiment(...)` call in `from_rocrate` (lines 1016–1030) does
not pass it. -/
theorem claim4_from_rocrate_raises :
    fromRocrate "2026-01-01" graphC4 =
      Except.error "ValidationError: field required: study_ref" := rfl
